import Mathlib

/-!
CEN64 start-up, rendezvous and teardown.

A shallow embedding of `CEN64.c` (`ParseArgs`, `RunConsole`,
`DestroyResources`, `main`) and `Event.c` (the event manager).

Conventions of the embedding:

* C strings are `List Char` (the characters before the terminating NUL);
  `*p` is the head of the list, or NUL when the list is empty.
* Pointers that are only compared with `NULL` are `Option Nat`.
* `int` values are `Int`; no arithmetic in this code can overflow.
* Calls into the operating system, GLFW and the simulation engine are
  answered by an oracle (`Env`); every such call is recorded in a trace.
* Loops that the C code does not bound take fuel; running out of fuel is
  `Outcome.diverge`.
* The preprocessor switches `_WIN32`, `GLFW3` and `NDEBUG` are the fields
  of `Build`.
-/

namespace CEN64

/-- A C string: the characters before the terminating NUL. -/
abbrev CStr := List Char

/-- The character a `const char *` points at. -/
def peek (s : CStr) : Char := s.headD (Char.ofNat 0)

/-- The preprocessor configuration of the translation units. -/
structure Build where
  win32 : Bool
  glfw3 : Bool
  ndebug : Bool
deriving DecidableEq, Repr

/-- Observable operations, in the order the program performs them. -/
inductive Event where
  | printf (text : String)
  | printfInt (format : String) (value : Int)
  | usage (argv0 : Option CStr)
  | debug (text : String)
  | wsaStartup
  | wsaCleanup
  | glfwInit
  | glfwTerminate
  | openWindow
  | glfwDestroyWindow (window : Nat)
  | glfwCloseWindow
  | createDevice (pifrom : CStr)
  | destroyDevice (device : Nat)
  | loadCartridge (cart : CStr)
  | readArg (index : Nat)
  | setControlType (value : CStr)
  | setEEPROMFile (value : CStr)
  | setSRAMFile (value : CStr)
  | getaddrinfo (port : Int)
  | freeaddrinfo
  | socket (result : Int)
  | bind (fd : Int) (result : Int)
  | listen (fd : Int) (backlog : Int) (result : Int)
  | getsockname (fd : Int)
  | accept (fd : Int) (result : Int)
  | shutdown (fd : Int)
  | close (fd : Int)
  | signal
  | cycleDevice
  | longjmp
  | dumpStatistics
deriving DecidableEq, Repr

/-- One invocation of `DestroyResources`, with its four arguments. -/
structure TeardownCall where
  device : Option Nat
  window : Option Nat
  sfd : Int
  cfd : Int
deriving DecidableEq, Repr

/-- The part of the outside world the program acts on. -/
structure World where
  trace : List Event
  openSockets : List Int
  teardowns : List TeardownCall
deriving DecidableEq, Repr

/-- The world before `main` starts. -/
def World.init : World := ⟨[], [], []⟩

/-- Records an operation. -/
def World.emit (w : World) (e : Event) : World :=
  { w with trace := w.trace ++ [e] }

/-- Result of a computation that may loop forever or fault. -/
inductive Outcome (α : Type) where
  | ret (a : α)
  | fault
  | diverge
deriving DecidableEq, Repr

/-- One address returned by the resolver, with what the system answers
when a socket is created, bound and listened on for it. -/
structure Candidate where
  socket : Option Nat
  bindOk : Bool
  listenOk : Bool
deriving DecidableEq, Repr

/-- Return value of `socket`/`accept`: the descriptor, or -1. -/
def fdResult : Option Nat → Int
  | some fd => (fd : Int)
  | none => -1

/-- Return value of `bind`/`listen`: 0, or -1. -/
def statusResult (ok : Bool) : Int := if ok then 0 else -1

/-- The system call `socket`. -/
def sysSocket (c : Candidate) (w : World) : Int × World :=
  let r := fdResult c.socket
  let w := w.emit (.socket r)
  (r, if r < 0 then w else { w with openSockets := r :: w.openSockets })

/-- The system call `close` (`closesocket` under `_WIN32`). -/
def sysClose (fd : Int) (w : World) : World :=
  { w.emit (.close fd) with openSockets := w.openSockets.erase fd }

/-! ## Event.c -/

/-- Embeds `CleanupEventManager`. -/
def CleanupEventManager (sfd : Int) (w : World) : World :=
  sysClose sfd w

/-- Embeds `CloseEventManagerHandle`. -/
def CloseEventManagerHandle (b : Build) (cfd : Int) (w : World) : World :=
  if b.win32 then sysClose cfd w
  else sysClose cfd (w.emit (.shutdown cfd))

/-- The `do ... while (cfd < 0)` loop of `GetEventManagerHandle`;
`accept k` is what the `k`-th call of `accept` answers. -/
def acceptLoop (accept : Nat → Option Nat) (sfd : Int) :
    Nat → Nat → World → Outcome (Int × World)
  | 0, _, _ => .diverge
  | fuel + 1, k, w =>
    let cfd := fdResult (accept k)
    let w := w.emit (.accept sfd cfd)
    let w := if cfd < 0 then w else { w with openSockets := cfd :: w.openSockets }
    if cfd < 0 then acceptLoop accept sfd fuel (k + 1) w
    else .ret (cfd, w)

/-- Embeds `GetEventManagerHandle`. -/
def GetEventManagerHandle (accept : Nat → Option Nat) (sfd : Int)
    (fuel : Nat) (w : World) : Outcome (Int × World) :=
  acceptLoop accept sfd fuel 0 w

/-- Embeds `GetEventManagerPort`; `sockname` is what `getsockname` stores
in `sin_port` (host order), or `none` when it returns -1. -/
def GetEventManagerPort (sockname : Option Nat) (sfd : Int) (w : World) :
    Int × World :=
  let w := w.emit (.getsockname sfd)
  match sockname with
  | none => (-1, w)
  | some p => (((p % 65536 : Nat) : Int), w)

/-- The candidate loop of `RegisterEventManager`. -/
def bindLoop : List Candidate → World → Int × World
  | [], w => (-1, w.emit .freeaddrinfo)
  | cur :: next, w =>
    let (sfd, w) := sysSocket cur w
    if sfd < 0 then bindLoop next w
    else
      let rb := statusResult cur.bindOk
      let w := w.emit (.bind sfd rb)
      if rb < 0 then bindLoop next (sysClose sfd w)
      else
        let rl := statusResult cur.listenOk
        let w := w.emit (.listen sfd 1 rl)
        if rl = -1 then bindLoop next (sysClose sfd w)
        else (sfd, w.emit .freeaddrinfo)

/-- Embeds `RegisterEventManager`; `resolver` is what `getaddrinfo`
answers for a port: `none` when it fails, else the candidate list. -/
def RegisterEventManager (resolver : Int → Option (List Candidate))
    (port : Int) (w : World) : Int × World :=
  let w := w.emit (.getaddrinfo port)
  match resolver port with
  | none => (-1, w)
  | some res => bindLoop res w

/-! ## CEN64.c -/

/-- What the operating system, GLFW and the simulation engine answer. -/
structure Env where
  /-- `WSAStartup` returns 0. -/
  wsaStartupOk : Bool
  /-- The value the parameter `cfd` takes at the call
  `DestroyResources(NULL, NULL, -1)`, which passes three arguments. -/
  missingArg : Int
  /-- `glfwInit` returns `GL_TRUE`. -/
  glfwInitOk : Bool
  /-- `glfwCreateWindow` / `glfwOpenWindow`: the window, or failure. -/
  openWindow : Option Nat
  /-- `CreateDevice`: the device, or `NULL`. -/
  createDevice : CStr → Option Nat
  /-- `getaddrinfo` for a port: failure, or the candidate list. -/
  resolver : Int → Option (List Candidate)
  /-- `getsockname`: failure, or the bound port. -/
  sockname : Option Nat
  /-- The `k`-th call of `accept`: failure, or the client descriptor. -/
  accept : Nat → Option Nat
  /-- `LoadCartridge`: its return value. -/
  loadCartridge : CStr → Int
  /-- After how many completed `CycleDevice` steps `RequestShutdown` is
  invoked (by `SIGINT` or by the window-close callback), if ever. -/
  shutdownAfter : Option Nat

/-- Embeds `CreateWindow`: return value and the new content of `*window`.
Under `GLFW3` it returns -1 when no window is created and else copies the
handle into `*window`; otherwise it returns -2 on failure and leaves
`*window` as it was (the window is global to GLFW). -/
def CreateWindow (b : Build) (opened : Option Nat) (window : Option Nat)
    (w : World) : Int × Option Nat × World :=
  let w := w.emit .openWindow
  match opened with
  | none => (if b.glfw3 then -1 else -2, window, w)
  | some h => (0, if b.glfw3 then some h else window, w)

/-- Embeds `DestroyWindow`. -/
def DestroyWindow (b : Build) (window : Nat) (w : World) : World :=
  if b.glfw3 then w.emit (.glfwDestroyWindow window) else w.emit .glfwCloseWindow

/-- The C library predicate `isspace` in the "C" locale. -/
def isspace (c : Char) : Bool :=
  c = ' ' || c = '\t' || c = '\n' || c = Char.ofNat 11 || c = Char.ofNat 12 || c = '\r'

/-- The C library predicate `isdigit`. -/
def isdigit (c : Char) : Bool := decide ('0' ≤ c) && decide (c ≤ '9')

/-- Largest `long` (LP64). -/
def LONG_MAX : Int := 2 ^ 63 - 1

/-- Smallest `long` (LP64). -/
def LONG_MIN : Int := -(2 ^ 63)

/-- Value of a run of decimal digits. -/
def digitsValue (ds : List Char) : Nat :=
  ds.foldl (fun acc c => 10 * acc + (c.toNat - 48)) 0

/-- The C library function `strtol(nptr, &endptr, 10)`: the value and the
string `endptr` points at. -/
def strtol (nptr : CStr) : Int × CStr :=
  let t := nptr.dropWhile isspace
  let neg := decide (peek t = '-')
  let u := if peek t = '-' ∨ peek t = '+' then t.drop 1 else t
  let ds := u.takeWhile isdigit
  if ds = [] then (0, nptr)
  else
    let n : Int := digitsValue ds
    (if neg then max (-n) LONG_MIN else min n LONG_MAX, u.dropWhile isdigit)

/-- The statement `while (*arg == ' ');` of `ParseArgs`: its body is empty,
so every round tests the same character `c = *arg`. -/
def spin (c : Char) : Nat → Option Unit
  | 0 => none
  | fuel + 1 => if c = ' ' then spin c fuel else some ()

/-- The switch-character handling of `ParseArgs`: accepts `-`, `--`, `/`. -/
def skipSwitch (arg : CStr) : CStr :=
  if peek arg = '-' then
    let arg := arg.drop 1
    if peek arg = '-' then arg.drop 1 else arg
  else if peek arg = '/' then arg.drop 1
  else arg

/-- What one pass through the `for` loop of `ParseArgs` comes to. -/
inductive Iter where
  /-- The loop condition `i < args` is false: the loop is left. -/
  | exit
  /-- A read outside `argv`, or through its terminating null pointer. -/
  | fault
  /-- The statement `while (*arg == ' ');` does not end. -/
  | hang
  /-- The body ran: the next `i` (after `i++`), the new `*port`, and the
  operations performed. -/
  | next (i : Nat) (port : Int) (done : List Event)
deriving DecidableEq, Repr

/-- The loop condition and one execution of the body of the `for` loop of
`ParseArgs`, at index `i` with `*port = port`. -/
def parseIter (args : Int) (argv : List CStr) (fuel : Nat) (i : Nat) (port : Int) : Iter :=
  if ¬ ((i : Int) < args) then .exit
  else
    match argv[i]? with
    | none => .fault
    | some arg0 =>
      match spin (peek arg0) fuel with
      | none => .hang
      | some () =>
        let arg := skipSwitch arg0
        if arg = "controller".toList then
          if (i : Int) + 1 ≥ args then
            .next (i + 2) port
              [.readArg i, .printf "-controller: Missing argument; ignoring.\n"]
          else
            match argv[i + 1]? with
            | none => .fault
            | some v => .next (i + 2) port [.readArg i, .readArg (i + 1), .setControlType v]
        else if arg = "eeprom".toList then
          if (i : Int) + 1 ≥ args then
            .next (i + 2) port
              [.readArg i, .printf "-eeprom: Missing argument; ignoring.\n"]
          else
            match argv[i + 1]? with
            | none => .fault
            | some v => .next (i + 2) port [.readArg i, .readArg (i + 1), .setEEPROMFile v]
        else if arg = "port".toList then
          match argv[i + 1]? with
          | none => .fault
          | some v =>
            let (num, endptr) := strtol v
            if peek v = Char.ofNat 0 ∨ peek endptr ≠ Char.ofNat 0 then
              .next (i + 2) port
                [.readArg i, .readArg (i + 1), .printf "-port: Needs a numeric argument.\n"]
            else if num < 0 ∨ num > 65535 then
              .next (i + 2) port
                [.readArg i, .readArg (i + 1),
                  .printf "-port: Argument must be in range: 0..65535.\n"]
            else
              .next (i + 2) num [.readArg i, .readArg (i + 1)]
        else if arg = "sram".toList then
          if (i : Int) + 1 ≥ args then
            .next (i + 2) port
              [.readArg i, .printf "-sram: Missing argument; ignoring.\n"]
          else
            match argv[i + 1]? with
            | none => .fault
            | some v => .next (i + 2) port [.readArg i, .readArg (i + 1), .setSRAMFile v]
        else
          .next (i + 1) port [.readArg i]

/-- The `for` loop of `ParseArgs`, from index `i` with `*port = port`;
`out` is what has been done so far. Returns the function result (the
`return 0` after the loop), `*port` and everything done. -/
def parseLoop (args : Int) (argv : List CStr) :
    Nat → Nat → Int → List Event → Outcome (Int × Int × List Event)
  | 0, _, _, _ => .diverge
  | fuel + 1, i, port, out =>
    match parseIter args argv (fuel + 1) i port with
    | .exit => .ret (0, port, out)
    | .fault => .fault
    | .hang => .diverge
    | .next i' port' done => parseLoop args argv fuel i' port' (out ++ done)

/-- Embeds `ParseArgs`: the function result, the final `*port`, and the
operations performed (reads of `argv`, diagnostics, device settings). -/
def ParseArgs (args : Int) (argv : List CStr) (port : Int) (fuel : Nat) :
    Outcome (Int × Int × List Event) :=
  parseLoop args argv fuel 0 port []

/-- The loop `while (1) CycleDevice(device);` of `RunConsole`, left only
through the `longjmp` of `RequestShutdown`. -/
def cycleLoop (shutdownAfter : Option Nat) : Nat → Nat → World → Outcome World
  | 0, _, _ => .diverge
  | fuel + 1, done, w =>
    if shutdownAfter = some done then .ret (w.emit .longjmp)
    else cycleLoop shutdownAfter fuel (done + 1) (w.emit .cycleDevice)

/-- Embeds `RunConsole`. -/
def RunConsole (e : Env) (fuel : Nat) (w : World) : Outcome World :=
  cycleLoop e.shutdownAfter fuel 0 (w.emit .signal)

/-- Embeds `DestroyResources`. -/
def DestroyResources (b : Build) (device window : Option Nat) (sfd cfd : Int)
    (w : World) : World :=
  let w := { w with teardowns := w.teardowns ++ [⟨device, window, sfd, cfd⟩] }
  let w := match device with
    | some d => w.emit (.destroyDevice d)
    | none => w
  let w := match window with
    | some h => DestroyWindow b h w
    | none => w
  let w := if cfd ≥ 0 then CloseEventManagerHandle b cfd w else w
  let w := if sfd ≥ 0 then CleanupEventManager sfd w else w
  let w := if b.win32 then w.emit .wsaCleanup else w
  w.emit .glfwTerminate

/-- Lines 352-372 of `main`: load the cartridge, run the console, tear
down. -/
def mainRun (b : Build) (e : Env) (device window : Option Nat) (cart : CStr)
    (sfd cfd : Int) (fuel : Nat) (w : World) : Outcome (Int × World) :=
  let rl := e.loadCartridge cart
  let w := w.emit (.loadCartridge cart)
  if rl ≠ 0 then
    let w := w.emit (.printf "Failed to load the ROM.\n")
    .ret (5, DestroyResources b device window sfd cfd w)
  else
    let w := w.emit (.debug "== Booting the Console ==")
    match RunConsole e fuel w with
    | .diverge => .diverge
    | .fault => .fault
    | .ret w =>
      let w := w.emit (.debug "== Destroying the Console ==")
      let w := if b.ndebug then w else w.emit .dumpStatistics
      .ret (0, DestroyResources b device window sfd cfd w)

/-- Lines 333-372 of `main`: the rendezvous with the frontend when a port
was requested, then `mainRun`. -/
def mainConnect (b : Build) (e : Env) (device window : Option Nat) (cart : CStr)
    (port : Int) (fuel : Nat) (w : World) : Outcome (Int × World) :=
  if port ≥ 0 then
    let (sfd, w) := RegisterEventManager e.resolver port w
    if sfd < 0 then
      let w := w.emit (.printf "Failed to create a socket.\n")
      .ret (4, DestroyResources b device window (-1) (-1) w)
    else
      let (port, w) := GetEventManagerPort e.sockname sfd w
      if port < 0 then
        let w := w.emit (.printf "Failed to create a socket.\n")
        .ret (4, DestroyResources b device window (-1) (-1) w)
      else
        let w := w.emit (.printfInt "%d\n" port)
        match GetEventManagerHandle e.accept sfd fuel w with
        | .diverge => .diverge
        | .fault => .fault
        | .ret (cfd, w) =>
          let w := CloseEventManagerHandle b sfd w
          mainRun b e device window cart (-1) cfd fuel w
  else
    mainRun b e device window cart (-1) (-1) fuel w

/-- Embeds `main`: the exit code and the final world. `argv` holds the
`argc` arguments, program name included. -/
def main (b : Build) (e : Env) (argv : List CStr) (fuel : Nat) :
    Outcome (Int × World) :=
  let w := World.init
  let argc := argv.length
  let port : Int := -1
  let window : Option Nat := none
  if argc < 3 then
    .ret (0, (w.emit (.usage argv[0]?)).emit
      (.printf "RSP Build Type: %s\nRDP Build Type: %s\n"))
  else
    let w := if b.win32 then w.emit .wsaStartup else w
    if b.win32 ∧ ¬ e.wsaStartupOk then
      let w := w.emit (.printf "Failed to initialize WinSock.\n")
      .ret (1, DestroyResources b none none (-1) e.missingArg w)
    else
      let w := w.emit .glfwInit
      if ¬ e.glfwInitOk then
        .ret (2, w.emit (.printf "Failed to initialize GLFW.\n"))
      else
        let (rc, window, w) := CreateWindow b e.openWindow window w
        if rc < 0 then
          let w := w.emit (.printf "Failed to open a GLFW window.\n")
          .ret (2, DestroyResources b none none (-1) (-1) w)
        else
          match argv[argc - 2]?, argv[argc - 1]? with
          | some pifrom, some cart =>
            let device := e.createDevice pifrom
            let w := w.emit (.createDevice pifrom)
            if device = none then
              let w := w.emit (.printf "Failed to create a device.\n")
              .ret (3, DestroyResources b none window (-1) (-1) w)
            else
              match ParseArgs ((argc : Int) - 3) (argv.drop 1) port fuel with
              | .diverge => .diverge
              | .fault => .fault
              | .ret (rp, port, out) =>
                let w := { w with trace := w.trace ++ out }
                if rp ≠ 0 then
                  .ret (255, DestroyResources b device window (-1) (-1) w)
                else
                  mainConnect b e device window cart port fuel w
          | _, _ => .fault

/-! ## Specification-side definitions

These follow the wording of the specification; the theorems below compare
them with the embedded code. -/

/-- Spec: a candidate on which socket-create, bind and listen all succeed. -/
def Candidate.good (c : Candidate) : Bool :=
  c.socket.isSome && c.bindOk && c.listenOk

/-- Spec: the first candidate, in resolver order, on which all three steps
succeed; none when the resolver fails or no candidate is good. -/
def firstGood (res : Option (List Candidate)) : Option Candidate :=
  res.bind (List.find? Candidate.good)

/-- Spec (4.3, steps 1-4): the release steps of the resources that are
present, in the order device, display, client socket, listening socket. -/
def releaseSteps (b : Build) (device window : Option Nat) (sfd cfd : Int) :
    List Event :=
  (match device with
    | some d => [Event.destroyDevice d]
    | none => []) ++
  (match window with
    | some h => [if b.glfw3 then Event.glfwDestroyWindow h else Event.glfwCloseWindow]
    | none => []) ++
  (if cfd ≥ 0 then
      (if b.win32 then [Event.close cfd] else [Event.shutdown cfd, Event.close cfd])
    else []) ++
  (if sfd ≥ 0 then [Event.close sfd] else [])

/-- Spec (4.3, step 5): the process-wide cleanup, which does not depend on
any resource. -/
def processCleanup (b : Build) : List Event :=
  (if b.win32 then [Event.wsaCleanup] else []) ++ [Event.glfwTerminate]

/-- Spec (section 6): the number a `-port` value denotes: optional white
space, an optional sign, then one or more decimal digits and nothing else. -/
def numericValue (v : CStr) : Option Int :=
  match v.dropWhile isspace with
  | '-' :: ds => if ds ≠ [] ∧ ds.all isdigit then some (-(digitsValue ds : Int)) else none
  | '+' :: ds => if ds ≠ [] ∧ ds.all isdigit then some (digitsValue ds : Int) else none
  | ds => if ds ≠ [] ∧ ds.all isdigit then some (digitsValue ds : Int) else none

/-- Spec (section 7): a `-port` value that is an argument error: not a
number, or a number outside 0..65535. -/
def badPortValue (v : CStr) : Bool :=
  match numericValue v with
  | none => true
  | some n => decide (n < 0) || decide (65535 < n)

/-- Spec (section 6): the stages of start-up that decide the exit code. -/
inductive Stage where
  | usage
  | networkInit
  | displayInit
  | windowCreate
  | deviceCreate
  | controlSocket
  | cartridgeLoad
  | cleanStop
deriving DecidableEq, Repr

/-- Spec (section 6): the exit code of each stage. -/
def Stage.exitCode : Stage → Int
  | .usage => 0
  | .networkInit => 1
  | .displayInit => 2
  | .windowCreate => 2
  | .deviceCreate => 3
  | .controlSocket => 4
  | .cartridgeLoad => 5
  | .cleanStop => 0

/-- The port `ParseArgs` leaves in `port` for a command line, -1 when no
valid `-port` option is given. -/
def requestedPort (argv : List CStr) : Int :=
  match ParseArgs ((argv.length : Int) - 3) (argv.drop 1) (-1) (argv.length + 1) with
  | .ret (_, port, _) => port
  | _ => -1

/-- The PIF-ROM path `argv[argc - 2]`. -/
def pifromOf (argv : List CStr) : CStr := argv.getD (argv.length - 2) []

/-- The cartridge path `argv[argc - 1]`. -/
def cartOf (argv : List CStr) : CStr := argv.getD (argv.length - 1) []

/-- Spec (sections 6, 7): the first stage that fails for a command line
and an environment, `cleanStop` when none does. A malformed `-port` value
is not among them. -/
def firstFailure (b : Build) (e : Env) (argv : List CStr) : Stage :=
  if argv.length < 3 then .usage
  else if b.win32 ∧ ¬ e.wsaStartupOk then .networkInit
  else if ¬ e.glfwInitOk then .displayInit
  else if e.openWindow = none then .windowCreate
  else if e.createDevice (pifromOf argv) = none then .deviceCreate
  else if 0 ≤ requestedPort argv ∧
      (firstGood (e.resolver (requestedPort argv)) = none ∨ e.sockname = none) then
    .controlSocket
  else if e.loadCartridge (cartOf argv) ≠ 0 then .cartridgeLoad
  else .cleanStop

/-- The build without `_WIN32`, `GLFW3` and `NDEBUG`. -/
def posixBuild : Build := ⟨false, false, false⟩

/-- The `GLFW3` build without `_WIN32` and `NDEBUG`. -/
def glfw3Build : Build := ⟨false, true, false⟩

/-- An environment in which every call succeeds: the first candidate fails
to bind, the second yields socket 3 on port 8080, the client is
descriptor 4 at the third `accept`, shutdown comes after two steps. -/
def goodEnv : Env where
  wsaStartupOk := true
  missingArg := -1
  glfwInitOk := true
  openWindow := some 7
  createDevice := fun _ => some 1
  resolver := fun _ => some [⟨some 3, false, true⟩, ⟨some 3, true, true⟩]
  sockname := some 8080
  accept := fun k => if k < 2 then none else some 4
  loadCartridge := fun _ => 0
  shutdownAfter := some 2

/-- As `goodEnv`, but the cartridge does not load. -/
def badCartEnv : Env := { goodEnv with loadCartridge := fun _ => 1 }

/-- An environment in which the control socket is bound as descriptor 3
and `getsockname` then fails. -/
def leakEnv : Env where
  wsaStartupOk := true
  missingArg := -1
  glfwInitOk := true
  openWindow := some 7
  createDevice := fun _ => some 1
  resolver := fun _ => some [⟨some 3, true, true⟩]
  sockname := none
  accept := fun _ => some 4
  loadCartridge := fun _ => 0
  shutdownAfter := some 0

/-- The command line `cen64 -port 0 pif.bin cart.z64`. -/
def portZeroLine : List CStr :=
  ["cen64".toList, "-port".toList, "0".toList, "pif.bin".toList, "cart.z64".toList]

/-- The command line `cen64 -port abc pif.bin cart.z64`. -/
def portAbcLine : List CStr :=
  ["cen64".toList, "-port".toList, "abc".toList, "pif.bin".toList, "cart.z64".toList]

/-- The command line `cen64 -port 70000 pif.bin cart.z64`. -/
def portBigLine : List CStr :=
  ["cen64".toList, "-port".toList, "70000".toList, "pif.bin".toList, "cart.z64".toList]

/-- The command line `cen64 pif.bin cart.z64`. -/
def plainLine : List CStr :=
  ["cen64".toList, "pif.bin".toList, "cart.z64".toList]

/-- The operations `ParseArgs` performs: reads of `argv`, diagnostics,
device settings. -/
def Event.ofParseArgs : Event → Bool
  | .readArg _ => true
  | .printf _ => true
  | .setControlType _ => true
  | .setEEPROMFile _ => true
  | .setSRAMFile _ => true
  | _ => false


/-- The operations `RegisterEventManager` performs. -/
def Event.ofBind : Event → Bool
  | .getaddrinfo _ => true
  | .freeaddrinfo => true
  | .socket _ => true
  | .bind _ _ => true
  | .listen _ _ _ => true
  | .close _ => true
  | _ => false

/-- The operations of the rendezvous after the bind: the port read-back,
the print of the port, and `accept`. -/
def Event.isRendezvous : Event → Bool
  | .getsockname _ => true
  | .printfInt _ _ => true
  | .accept _ _ => true
  | _ => false


/-- The operations of `main` before argument parsing when every stage up
to device creation succeeds. -/
def startupTrace (b : Build) (pifrom : CStr) : List Event :=
  (if b.win32 then [Event.wsaStartup] else []) ++
    [Event.glfwInit, Event.openWindow, Event.createDevice pifrom]

/-- The content of the variable `window` of `main` after a successful
`CreateWindow`: only the `GLFW3` build stores the handle. -/
def windowSlot (b : Build) (e : Env) : Option Nat :=
  if b.glfw3 then e.openWindow else none

/-- The world at exit of `cen64 -port 0 pif.bin cart.z64` in `leakEnv`
(`GLFW3` build): socket 3 is still open. -/
def leakRun : World :=
  ⟨[.glfwInit, .openWindow, .createDevice "pif.bin".toList, .readArg 0, .readArg 1,
      .getaddrinfo 0, .socket 3, .bind 3 0, .listen 3 1 0, .freeaddrinfo, .getsockname 3,
      .printf "Failed to create a socket.\n", .destroyDevice 1, .glfwDestroyWindow 7,
      .glfwTerminate],
    [3], [⟨some 1, some 7, -1, -1⟩]⟩

/-- The world at exit of `cen64 -port 70000 pif.bin cart.z64` in
`badCartEnv`. -/
def bigPortRun : World :=
  ⟨[.glfwInit, .openWindow, .createDevice "pif.bin".toList, .readArg 0, .readArg 1,
      .printf "-port: Argument must be in range: 0..65535.\n",
      .loadCartridge "cart.z64".toList, .printf "Failed to load the ROM.\n",
      .destroyDevice 1, .glfwTerminate],
    [], [⟨some 1, none, -1, -1⟩]⟩

/-- The world at exit of `cen64 -port abc pif.bin cart.z64` in `goodEnv`. -/
def abcRun : World :=
  ⟨[.glfwInit, .openWindow, .createDevice "pif.bin".toList, .readArg 0, .readArg 1,
      .printf "-port: Needs a numeric argument.\n", .loadCartridge "cart.z64".toList,
      .debug "== Booting the Console ==", .signal, .cycleDevice, .cycleDevice, .longjmp,
      .debug "== Destroying the Console ==", .dumpStatistics, .destroyDevice 1,
      .glfwTerminate],
    [], [⟨some 1, none, -1, -1⟩]⟩

/-- The operations of a rendezvous on socket 3 in `goodEnv`, then a run of
two steps and the teardown with client 4. -/
def goodTail : List Event :=
  [.socket 3, .bind 3 (-1), .close 3, .socket 3, .bind 3 0, .listen 3 1 0, .freeaddrinfo,
    .getsockname 3, .printfInt "%d\n" 8080, .accept 3 (-1), .accept 3 (-1), .accept 3 4,
    .shutdown 3, .close 3, .loadCartridge "cart.z64".toList,
    .debug "== Booting the Console ==", .signal, .cycleDevice, .cycleDevice, .longjmp,
    .debug "== Destroying the Console ==", .dumpStatistics, .destroyDevice 1, .shutdown 4,
    .close 4, .glfwTerminate]

/-- The world at exit of `cen64 -port 0 pif.bin cart.z64` in `goodEnv`. -/
def goodRun : World :=
  ⟨[.glfwInit, .openWindow, .createDevice "pif.bin".toList, .readArg 0, .readArg 1,
      .getaddrinfo 0] ++ goodTail,
    [], [⟨some 1, none, -1, 4⟩]⟩

/-- The operations `ParseArgs` performs for a command line, when it
returns. -/
def parsedEvents (argv : List CStr) : List Event :=
  match ParseArgs ((argv.length : Int) - 3) (argv.drop 1) (-1) (argv.length + 1) with
  | .ret (_, _, out) => out
  | _ => []

/-- Whether `ParseArgs` returns for a command line: it does unless an
option it scans begins with a space. The program name, the values of
options and the two paths are never scanned. -/
def parseReturns (argv : List CStr) : Bool :=
  match ParseArgs ((argv.length : Int) - 3) (argv.drop 1) (-1) (argv.length + 1) with
  | .ret _ => true
  | _ => false

/-- The operations that set up the control channel: resolving, creating,
binding and listening on a socket, the port read-back, the print of the
port, and `accept`. -/
def Event.opensChannel : Event → Bool
  | .getaddrinfo _ => true
  | .socket _ => true
  | .bind _ _ => true
  | .listen _ _ _ => true
  | .getsockname _ => true
  | .printfInt _ _ => true
  | .accept _ _ => true
  | _ => false

/-- The operations of `main` up to and including the bind
(`RegisterEventManager`), when every stage before it succeeds. -/
def rendezvousPre (b : Build) (e : Env) (argv : List CStr) : List Event :=
  (RegisterEventManager e.resolver (requestedPort argv)
    ⟨startupTrace b (pifromOf argv) ++ parsedEvents argv, [], []⟩).2.trace

/-- Spec (4.2): the rendezvous after the bind on socket `sfd`: read back
the port, print it once as a decimal line, call `accept` until it succeeds
(`fails` failed calls, then the client), close the listening socket. -/
def rendezvousSteps (b : Build) (sfd port : Int) (fails client : Nat) : List Event :=
  [Event.getsockname sfd, Event.printfInt "%d\n" port] ++
    List.replicate fails (Event.accept sfd (-1)) ++ [Event.accept sfd client] ++
    (if b.win32 then [] else [Event.shutdown sfd]) ++ [Event.close sfd]

theorem spin_succ (c : Char) (n : Nat) :
    spin c (n + 1) = if c = ' ' then none else some () := by
  induction n with
  | zero => simp [spin]
  | succ n ih =>
    rw [spin]
    split
    · rename_i h; simp [h] at ih; simp [h, ih]
    · rename_i h; simp [h]

theorem parseIter_fuel (args : Int) (argv : List CStr) (f g i : Nat) (port : Int) :
    parseIter args argv (f + 1) i port = parseIter args argv (g + 1) i port := by
  simp only [parseIter, spin_succ]

theorem parseIter_next (args : Int) (argv : List CStr) (f i : Nat) (port : Int)
    (i' : Nat) (p' : Int) (ev : List Event)
    (h : parseIter args argv f i port = .next i' p' ev) :
    (i : Int) < args ∧ i < i' ∧ (∀ x ∈ ev, x.ofParseArgs = true) := by
  unfold parseIter at h
  split at h
  · simp at h
  · rename_i hlt
    simp only [not_not] at hlt
    refine ⟨hlt, ?_⟩
    split at h
    · simp at h
    · split at h
      · simp at h
      · simp only at h
        split_ifs at h <;> (try split at h) <;> (try split at h) <;> (try split_ifs at h) <;>
          simp at h <;> obtain ⟨h1, h2, h3⟩ := h <;> subst h1 h3 <;>
          simp [Event.ofParseArgs]

theorem parseIter_no_fault (args : Int) (argv : List CStr) (f i : Nat) (port : Int)
    (hlen : args + 1 ≤ (argv.length : Int)) :
    parseIter args argv f i port ≠ .fault := by
  unfold parseIter
  split
  · simp
  · rename_i hlt
    simp only [not_not] at hlt
    have hi : i < argv.length := by omega
    have hi1 : i + 1 < argv.length := by omega
    simp only [List.getElem?_eq_getElem hi, List.getElem?_eq_getElem hi1]
    split
    · simp
    · split_ifs <;> simp

theorem parseIter_no_hang (args : Int) (argv : List CStr) (f i : Nat) (port : Int)
    (hsp : ∀ a ∈ argv, peek a ≠ ' ') :
    parseIter args argv (f + 1) i port ≠ .hang := by
  unfold parseIter
  split
  · simp
  · split
    · simp
    · rename_i a ha
      have hmem : a ∈ argv := List.getElem?_mem ha
      simp only [spin_succ, hsp a hmem, if_false]
      split_ifs <;> (try split) <;> (try split) <;> (try split_ifs) <;> simp

theorem parseLoop_result_zero (args : Int) (argv : List CStr) (fuel i : Nat) (port : Int)
    (out : List Event) (r p : Int) (o : List Event)
    (h : parseLoop args argv fuel i port out = .ret (r, p, o)) :
    r = 0 ∧ ∃ ev, o = out ++ ev ∧ ∀ x ∈ ev, x.ofParseArgs = true := by
  induction fuel generalizing i port out with
  | zero => simp [parseLoop] at h
  | succ n ih =>
    rw [parseLoop] at h
    split at h
    · simp at h
      exact ⟨h.1.symm, [], by simp [h.2.2]⟩
    · simp at h
    · simp at h
    · rename_i i' p' ev hit
      obtain ⟨h0, ev2, h1, h2⟩ := ih _ _ _ h
      refine ⟨h0, ev ++ ev2, by simp [h1], ?_⟩
      intro x hx
      rcases List.mem_append.mp hx with hx | hx
      · exact (parseIter_next _ _ _ _ _ _ _ _ hit).2.2 x hx
      · exact h2 x hx

theorem parseLoop_no_fault (args : Int) (argv : List CStr) (fuel i : Nat) (port : Int)
    (out : List Event) (hlen : args + 1 ≤ (argv.length : Int)) :
    parseLoop args argv fuel i port out ≠ .fault := by
  induction fuel generalizing i port out with
  | zero => simp [parseLoop]
  | succ n ih =>
    rw [parseLoop]
    split
    · simp
    · rename_i hit
      exact absurd hit (parseIter_no_fault _ _ _ _ _ hlen)
    · simp
    · exact ih _ _ _

theorem parseLoop_stable (args : Int) (argv : List CStr) (f i : Nat) (port : Int)
    (out : List Event) (r : Int × Int × List Event)
    (h : parseLoop args argv f i port out = .ret r) (g : Nat)
    (hg : (args - i).toNat + 1 ≤ g) :
    parseLoop args argv g i port out = .ret r := by
  induction f generalizing i port out g with
  | zero => simp [parseLoop] at h
  | succ n ih =>
    cases g with
    | zero => omega
    | succ m =>
      rw [parseLoop] at h
      rw [parseLoop, parseIter_fuel args argv m n]
      split at h
      · exact h
      · simp at h
      · simp at h
      · rename_i i' p' ev hit
        have hn := parseIter_next _ _ _ _ _ _ _ _ hit
        exact ih _ _ _ h m (by omega)

theorem parseLoop_total (args : Int) (argv : List CStr) (f i : Nat) (port : Int)
    (out : List Event) (hlen : args + 1 ≤ (argv.length : Int))
    (hsp : ∀ a ∈ argv, peek a ≠ ' ') (hf : (args - i).toNat + 1 ≤ f) :
    ∃ r, parseLoop args argv f i port out = .ret r := by
  induction f generalizing i port out with
  | zero => omega
  | succ n ih =>
    rw [parseLoop]
    split
    · exact ⟨_, rfl⟩
    · rename_i hit
      exact absurd hit (parseIter_no_fault _ _ _ _ _ hlen)
    · rename_i hit
      exact absurd hit (parseIter_no_hang _ _ _ _ _ hsp)
    · rename_i i' p' ev hit
      have hn := parseIter_next _ _ _ _ _ _ _ _ hit
      exact ih _ _ _ (by omega)

theorem acceptLoop_ret (accept : Nat → Option Nat) (sfd : Int) (fuel j : Nat) (w : World)
    (cfd : Int) (w' : World) (h : acceptLoop accept sfd fuel j w = .ret (cfd, w')) :
    ∃ k fd, accept (j + k) = some fd ∧ (∀ i, i < k → accept (j + i) = none) ∧
      cfd = (fd : Int) ∧
      w' = ⟨w.trace ++ List.replicate k (Event.accept sfd (-1)) ++ [Event.accept sfd fd],
        (fd : Int) :: w.openSockets, w.teardowns⟩ := by
  induction fuel generalizing j w with
  | zero => simp [acceptLoop] at h
  | succ n ih =>
    rw [acceptLoop] at h
    cases hacc : accept j with
    | none =>
      simp [hacc, fdResult] at h
      obtain ⟨k, fd, h1, hmin, h2, h3⟩ := ih _ _ h
      refine ⟨k + 1, fd, by rw [← h1]; congr 1; omega, ?_, h2, ?_⟩
      · intro i hi
        cases i with
        | zero => simpa using hacc
        | succ i =>
          have := hmin i (by omega)
          rw [← this]
          congr 1
          omega
      · rw [h3]
        simp [World.emit, List.replicate_succ]
    | some fd =>
      have hfd : ¬ ((fd : Int) < 0) := by omega
      simp [hacc, fdResult, hfd] at h
      refine ⟨0, fd, by simpa using hacc, by intro i hi; omega, h.1.symm, ?_⟩
      rw [← h.2]
      simp [World.emit]

theorem acceptLoop_total (accept : Nat → Option Nat) (sfd : Int) (fuel j k : Nat) (w : World)
    (hk : accept k ≠ none) (hj : j ≤ k) (hf : k - j + 1 ≤ fuel) :
    ∃ r, acceptLoop accept sfd fuel j w = .ret r := by
  induction fuel generalizing j w with
  | zero => omega
  | succ n ih =>
    rw [acceptLoop]
    cases hacc : accept j with
    | none =>
      have hne : j ≠ k := by
        intro hjk
        rw [hjk] at hacc
        exact hk hacc
      have hstep := ih (j + 1) (w.emit (Event.accept sfd (-1))) (by omega) (by omega)
      simpa [fdResult] using hstep
    | some fd =>
      have hfd : ¬ ((fd : Int) < 0) := by omega
      simp [fdResult, hfd]

theorem acceptLoop_no_fault (accept : Nat → Option Nat) (sfd : Int) (fuel j : Nat)
    (w : World) : acceptLoop accept sfd fuel j w ≠ .fault := by
  induction fuel generalizing j w with
  | zero => simp [acceptLoop]
  | succ n ih =>
    rw [acceptLoop]
    split
    · exact ih _ _
    · simp

theorem cycleLoop_ret (s : Option Nat) (fuel done : Nat) (w w' : World)
    (h : cycleLoop s fuel done w = .ret w') :
    ∃ n, s = some (done + n) ∧
      w' = ⟨w.trace ++ List.replicate n Event.cycleDevice ++ [Event.longjmp],
        w.openSockets, w.teardowns⟩ := by
  induction fuel generalizing done w with
  | zero => simp [cycleLoop] at h
  | succ m ih =>
    rw [cycleLoop] at h
    split at h
    · rename_i hs
      simp at h
      refine ⟨0, by simpa using hs, ?_⟩
      rw [← h]
      simp [World.emit]
    · obtain ⟨n, h1, h2⟩ := ih _ _ h
      refine ⟨n + 1, by rw [h1]; congr 1; omega, ?_⟩
      rw [h2]
      simp [World.emit, List.replicate_succ]

theorem cycleLoop_total (fuel done n : Nat) (w : World) (hd : done ≤ n)
    (hf : n - done + 1 ≤ fuel) :
    cycleLoop (some n) fuel done w =
      .ret ⟨w.trace ++ List.replicate (n - done) Event.cycleDevice ++ [Event.longjmp],
        w.openSockets, w.teardowns⟩ := by
  induction fuel generalizing done w with
  | zero => omega
  | succ m ih =>
    rw [cycleLoop]
    by_cases hdn : n = done
    · subst hdn
      simp [World.emit]
    · have hne : ¬ (some n = some done) := by simpa using hdn
      rw [if_neg hne, ih (done + 1) _ (by omega) (by omega)]
      have hsub : n - done = (n - (done + 1)) + 1 := by omega
      rw [hsub]
      simp [World.emit, List.replicate_succ]

theorem cycleLoop_no_fault (s : Option Nat) (fuel done : Nat) (w : World) :
    cycleLoop s fuel done w ≠ .fault := by
  induction fuel generalizing done w with
  | zero => simp [cycleLoop]
  | succ m ih =>
    rw [cycleLoop]
    split
    · simp
    · exact ih _ _

theorem natCast_not_neg (n : Nat) : ¬ ((n : Int) < 0) := by omega

theorem bindLoop_spec (res : List Candidate) (w : World) :
    (bindLoop res w).1 =
        (match res.find? Candidate.good with
          | some c => fdResult c.socket
          | none => -1) ∧
    (bindLoop res w).2.openSockets =
        (match res.find? Candidate.good with
          | some c => fdResult c.socket :: w.openSockets
          | none => w.openSockets) ∧
    (∀ fd n r, Event.listen fd n r ∈ (bindLoop res w).2.trace →
        Event.listen fd n r ∈ w.trace ∨ n = 1) := by
  induction res generalizing w with
  | nil =>
    simp [bindLoop, World.emit]
    intro a n r h
    exact Or.inl h
  | cons cur next ih =>
    rcases cur with ⟨so, bo, lo⟩
    cases so with
    | none =>
      have h := ih (w.emit (.socket (-1)))
      simpa [bindLoop, sysSocket, fdResult, Candidate.good, World.emit] using h
    | some fd =>
      have hfd := natCast_not_neg fd
      cases bo with
      | false =>
        have h := ih (sysClose fd ((sysSocket ⟨some fd, false, lo⟩ w).2.emit (.bind fd (-1))))
        simpa [bindLoop, sysSocket, fdResult, statusResult, Candidate.good, World.emit,
          sysClose, hfd] using h
      | true =>
        cases lo with
        | false =>
          have h := ih (sysClose fd (((sysSocket ⟨some fd, true, false⟩ w).2.emit
            (.bind fd 0)).emit (.listen fd 1 (-1))))
          simp only [bindLoop, sysSocket, fdResult, statusResult, Candidate.good, World.emit,
            sysClose, hfd] at h ⊢
          simp at h ⊢
          refine ⟨h.1, h.2.1, ?_⟩
          intro a n r hm
          rcases h.2.2 a n r hm with h1 | h1
          · rcases h1 with h1 | h1
            · exact Or.inl h1
            · exact Or.inr h1.2.1
          · exact Or.inr h1
        | true =>
          simp [bindLoop, sysSocket, fdResult, statusResult, Candidate.good, World.emit, hfd]
          intro a n r hm
          rcases hm with h1 | h1
          · exact Or.inl h1
          · exact Or.inr h1.2.1

theorem bindLoop_frame (res : List Candidate) (w : World) :
    (∃ ev, (bindLoop res w).2.trace = w.trace ++ ev ∧ ∀ x ∈ ev, x.ofBind = true) ∧
    (bindLoop res w).2.teardowns = w.teardowns := by
  induction res generalizing w with
  | nil =>
    refine ⟨⟨[Event.freeaddrinfo], by simp [bindLoop, World.emit], by simp [Event.ofBind]⟩, ?_⟩
    simp [bindLoop, World.emit]
  | cons cur next ih =>
    rcases cur with ⟨so, bo, lo⟩
    cases so with
    | none =>
      obtain ⟨⟨ev, h1, h2⟩, h3⟩ := ih (w.emit (.socket (-1)))
      refine ⟨⟨Event.socket (-1) :: ev, ?_, ?_⟩, ?_⟩
      · simpa [bindLoop, sysSocket, fdResult, World.emit] using h1
      · intro x hx
        rcases List.mem_cons.mp hx with hx | hx
        · subst hx; rfl
        · exact h2 x hx
      · simpa [bindLoop, sysSocket, fdResult, World.emit] using h3
    | some fd =>
      have hfd := natCast_not_neg fd
      cases bo with
      | false =>
        obtain ⟨⟨ev, h1, h2⟩, h3⟩ :=
          ih (sysClose fd ((sysSocket ⟨some fd, false, lo⟩ w).2.emit (.bind fd (-1))))
        refine ⟨⟨[Event.socket fd, Event.bind fd (-1), Event.close fd] ++ ev, ?_, ?_⟩, ?_⟩
        · simpa [bindLoop, sysSocket, fdResult, statusResult, World.emit, sysClose, hfd]
            using h1
        · intro x hx
          rcases List.mem_append.mp hx with hx | hx
          · simp at hx
            rcases hx with hx | hx | hx <;> subst hx <;> rfl
          · exact h2 x hx
        · simpa [bindLoop, sysSocket, fdResult, statusResult, World.emit, sysClose, hfd]
            using h3
      | true =>
        cases lo with
        | false =>
          obtain ⟨⟨ev, h1, h2⟩, h3⟩ :=
            ih (sysClose fd (((sysSocket ⟨some fd, true, false⟩ w).2.emit
              (.bind fd 0)).emit (.listen fd 1 (-1))))
          refine ⟨⟨[Event.socket fd, Event.bind fd 0, Event.listen fd 1 (-1),
            Event.close fd] ++ ev, ?_, ?_⟩, ?_⟩
          · simpa [bindLoop, sysSocket, fdResult, statusResult, World.emit, sysClose, hfd]
              using h1
          · intro x hx
            rcases List.mem_append.mp hx with hx | hx
            · simp at hx
              rcases hx with hx | hx | hx | hx <;> subst hx <;> rfl
            · exact h2 x hx
          · simpa [bindLoop, sysSocket, fdResult, statusResult, World.emit, sysClose, hfd]
              using h3
        | true =>
          refine ⟨⟨[Event.socket fd, Event.bind fd 0, Event.listen fd 1 0,
            Event.freeaddrinfo], ?_, ?_⟩, ?_⟩
          · simp [bindLoop, sysSocket, fdResult, statusResult, World.emit, hfd]
          · intro x hx
            simp at hx
            rcases hx with hx | hx | hx | hx <;> subst hx <;> rfl
          · simp [bindLoop, sysSocket, fdResult, statusResult, World.emit, hfd]

theorem RegisterEventManager_spec (resolver : Int → Option (List Candidate))
    (port : Int) (w : World) :
    (RegisterEventManager resolver port w).1 =
        (match firstGood (resolver port) with
          | some c => fdResult c.socket
          | none => -1) ∧
    (RegisterEventManager resolver port w).2.openSockets =
        (match firstGood (resolver port) with
          | some c => fdResult c.socket :: w.openSockets
          | none => w.openSockets) ∧
    (∀ fd n r, Event.listen fd n r ∈ (RegisterEventManager resolver port w).2.trace →
        Event.listen fd n r ∈ w.trace ∨ n = 1) := by
  unfold RegisterEventManager firstGood
  cases hres : resolver port with
  | none =>
    simp [World.emit]
    intro a n r h
    exact Or.inl h
  | some res =>
    have h := bindLoop_spec res (w.emit (.getaddrinfo port))
    simp only [Option.bind_some]
    refine ⟨h.1, ?_, ?_⟩
    · simpa [World.emit] using h.2.1
    · intro a n r hm
      rcases h.2.2 a n r hm with h1 | h1
      · simp [World.emit] at h1
        exact Or.inl h1
      · exact Or.inr h1

theorem RegisterEventManager_frame (resolver : Int → Option (List Candidate))
    (port : Int) (w : World) :
    (∃ ev, (RegisterEventManager resolver port w).2.trace = w.trace ++ ev ∧
      ∀ x ∈ ev, x.ofBind = true) ∧
    (RegisterEventManager resolver port w).2.teardowns = w.teardowns := by
  unfold RegisterEventManager
  cases hres : resolver port with
  | none =>
    refine ⟨⟨[Event.getaddrinfo port], by simp [World.emit], by simp [Event.ofBind]⟩, ?_⟩
    simp [World.emit]
  | some res =>
    obtain ⟨⟨ev, h1, h2⟩, h3⟩ := bindLoop_frame res (w.emit (.getaddrinfo port))
    refine ⟨⟨Event.getaddrinfo port :: ev, ?_, ?_⟩, ?_⟩
    · simpa [World.emit] using h1
    · intro x hx
      rcases List.mem_cons.mp hx with hx | hx
      · subst hx; rfl
      · exact h2 x hx
    · simpa [World.emit] using h3

theorem firstGood_socket (res : Option (List Candidate)) (c : Candidate)
    (h : firstGood res = some c) : ∃ fd, c.socket = some fd ∧ fdResult c.socket = (fd : Int) := by
  unfold firstGood at h
  cases res with
  | none => simp at h
  | some l =>
    change List.find? Candidate.good l = some c at h
    have hg := List.find?_some h
    unfold Candidate.good at hg
    cases hs : c.socket with
    | none => simp [hs] at hg
    | some fd => exact ⟨fd, rfl, by simp [fdResult]⟩

theorem DestroyResources_trace (b : Build) (device window : Option Nat) (sfd cfd : Int)
    (w : World) :
    (DestroyResources b device window sfd cfd w).trace =
      w.trace ++ releaseSteps b device window sfd cfd ++ processCleanup b := by
  unfold DestroyResources releaseSteps processCleanup
  cases device <;> cases window <;> by_cases h1 : cfd ≥ 0 <;> by_cases h2 : sfd ≥ 0 <;>
    cases hw : b.win32 <;> cases hg : b.glfw3 <;>
    simp [DestroyWindow, CloseEventManagerHandle, CleanupEventManager, sysClose, World.emit,
      h1, h2, hw, hg]

theorem DestroyResources_teardowns (b : Build) (device window : Option Nat) (sfd cfd : Int)
    (w : World) :
    (DestroyResources b device window sfd cfd w).teardowns =
      w.teardowns ++ [⟨device, window, sfd, cfd⟩] := by
  unfold DestroyResources
  cases device <;> cases window <;> by_cases h1 : cfd ≥ 0 <;> by_cases h2 : sfd ≥ 0 <;>
    cases hw : b.win32 <;> cases hg : b.glfw3 <;>
    simp [DestroyWindow, CloseEventManagerHandle, CleanupEventManager, sysClose, World.emit,
      h1, h2, hw, hg]

theorem mainRun_ret (b : Build) (e : Env) (dev win : Option Nat) (cart : CStr)
    (sfd cfd : Int) (fuel : Nat) (w : World) (code : Int) (wf : World)
    (h : mainRun b e dev win cart sfd cfd fuel w = .ret (code, wf)) :
    (e.loadCartridge cart ≠ 0 ∧ code = 5 ∧
      wf = DestroyResources b dev win sfd cfd
        ⟨w.trace ++ [Event.loadCartridge cart, Event.printf "Failed to load the ROM.\n"],
          w.openSockets, w.teardowns⟩) ∨
    (e.loadCartridge cart = 0 ∧ code = 0 ∧ ∃ n, e.shutdownAfter = some n ∧
      wf = DestroyResources b dev win sfd cfd
        ⟨w.trace ++ [Event.loadCartridge cart, Event.debug "== Booting the Console ==",
            Event.signal] ++ List.replicate n Event.cycleDevice ++
            [Event.longjmp, Event.debug "== Destroying the Console =="] ++
            (if b.ndebug then [] else [Event.dumpStatistics]),
          w.openSockets, w.teardowns⟩) := by
  unfold mainRun at h
  by_cases hl : e.loadCartridge cart = 0
  · right
    simp only [hl, ne_eq, not_true_eq_false, if_false] at h
    split at h
    · simp at h
    · simp at h
    · rename_i w1 hrun
      unfold RunConsole at hrun
      obtain ⟨n, hn, hw1⟩ := cycleLoop_ret _ _ _ _ _ hrun
      simp only [Outcome.ret.injEq, Prod.mk.injEq] at h
      refine ⟨hl, h.1.symm, n, by simpa using hn, ?_⟩
      rw [← h.2, hw1]
      cases hnd : b.ndebug <;> simp [World.emit]
  · left
    simp only [ne_eq, hl, not_false_eq_true, if_true] at h
    simp only [Outcome.ret.injEq, Prod.mk.injEq] at h
    refine ⟨hl, h.1.symm, ?_⟩
    rw [← h.2]
    simp [World.emit]

theorem mainRun_total (b : Build) (e : Env) (dev win : Option Nat) (cart : CStr)
    (sfd cfd : Int) (fuel : Nat) (w : World) (n : Nat)
    (hs : e.shutdownAfter = some n) (hf : n + 1 ≤ fuel) :
    ∃ r, mainRun b e dev win cart sfd cfd fuel w = .ret r := by
  unfold mainRun
  by_cases hl : e.loadCartridge cart = 0
  · simp only [hl, ne_eq, not_true_eq_false, if_false]
    unfold RunConsole
    rw [hs, cycleLoop_total fuel 0 n _ (by omega) (by omega)]
    exact ⟨_, rfl⟩
  · simp only [ne_eq, hl, not_false_eq_true, if_true]
    exact ⟨_, rfl⟩

theorem mainRun_no_fault (b : Build) (e : Env) (dev win : Option Nat) (cart : CStr)
    (sfd cfd : Int) (fuel : Nat) (w : World) :
    mainRun b e dev win cart sfd cfd fuel w ≠ .fault := by
  unfold mainRun
  by_cases hl : e.loadCartridge cart = 0
  · simp only [hl, ne_eq, not_true_eq_false, if_false]
    split
    · simp
    · rename_i hrun
      exact absurd hrun (cycleLoop_no_fault _ _ _ _)
    · simp
  · simp only [ne_eq, hl, not_false_eq_true, if_true]
    simp

theorem mainConnect_ret (b : Build) (e : Env) (dev win : Option Nat) (cart : CStr)
    (port : Int) (fuel : Nat) (w : World) (code : Int) (wf : World)
    (h : mainConnect b e dev win cart port fuel w = .ret (code, wf)) :
    (port < 0 ∧ mainRun b e dev win cart (-1) (-1) fuel w = .ret (code, wf)) ∨
    (0 ≤ port ∧ firstGood (e.resolver port) = none ∧ code = 4 ∧
      wf = DestroyResources b dev win (-1) (-1)
        ((RegisterEventManager e.resolver port w).2.emit
          (Event.printf "Failed to create a socket.\n"))) ∨
    (0 ≤ port ∧ ∃ c, firstGood (e.resolver port) = some c ∧ e.sockname = none ∧ code = 4 ∧
      wf = DestroyResources b dev win (-1) (-1)
        (((RegisterEventManager e.resolver port w).2.emit
          (Event.getsockname (fdResult c.socket))).emit
          (Event.printf "Failed to create a socket.\n"))) ∨
    (0 ≤ port ∧ ∃ c q k client, firstGood (e.resolver port) = some c ∧
      e.sockname = some q ∧ e.accept k = some client ∧ (∀ i, i < k → e.accept i = none) ∧
      mainRun b e dev win cart (-1) (client : Int) fuel
        ⟨(RegisterEventManager e.resolver port w).2.trace ++
            [Event.getsockname (fdResult c.socket),
              Event.printfInt "%d\n" ((q % 65536 : Nat) : Int)] ++
            List.replicate k (Event.accept (fdResult c.socket) (-1)) ++
            [Event.accept (fdResult c.socket) client] ++
            (if b.win32 then [] else [Event.shutdown (fdResult c.socket)]) ++
            [Event.close (fdResult c.socket)],
          (((client : Int) :: (RegisterEventManager e.resolver port w).2.openSockets).erase
            (fdResult c.socket)),
          (RegisterEventManager e.resolver port w).2.teardowns⟩ = .ret (code, wf)) := by
  unfold mainConnect at h
  by_cases hp : port ≥ 0
  · have hspec := RegisterEventManager_spec e.resolver port w
    simp only [hp, if_true] at h
    cases hfg : firstGood (e.resolver port) with
    | none =>
      right; left
      rw [hfg] at hspec
      have h1 : (RegisterEventManager e.resolver port w).1 = -1 := hspec.1
      simp only [h1] at h
      simp at h
      exact ⟨hp, rfl, h.1.symm, h.2.symm⟩
    | some c =>
      right; right
      rw [hfg] at hspec
      obtain ⟨fd, hfd1, hfd2⟩ := firstGood_socket _ _ hfg
      have h1 : (RegisterEventManager e.resolver port w).1 = fdResult c.socket := hspec.1
      have hnn : ¬ (fdResult c.socket < 0) := by rw [hfd2]; omega
      simp only [h1, hnn, if_false] at h
      cases hsn : e.sockname with
      | none =>
        left
        simp [GetEventManagerPort, hsn] at h
        exact ⟨hp, c, rfl, rfl, h.1.symm, h.2.symm⟩
      | some q =>
        right
        have hq : ¬ (((q % 65536 : Nat) : Int) < 0) := by omega
        simp only [GetEventManagerPort, hsn, hq, if_false] at h
        split at h
        · simp at h
        · simp at h
        · rename_i cfd w1 hacc
          unfold GetEventManagerHandle at hacc
          obtain ⟨k, client, hk1, hk2, hk3, hk4⟩ := acceptLoop_ret _ _ _ _ _ _ _ hacc
          refine ⟨hp, c, q, k, client, rfl, rfl, by simpa using hk1, ?_, ?_⟩
          · intro i hi
            simpa using hk2 i hi
          · rw [← h, hk3, hk4]
            congr 1
            cases hw : b.win32 <;>
              simp [CloseEventManagerHandle, sysClose, World.emit, hw]
  · left
    simp only [hp, if_false] at h
    exact ⟨by omega, h⟩

theorem mainConnect_no_fault (b : Build) (e : Env) (dev win : Option Nat) (cart : CStr)
    (port : Int) (fuel : Nat) (w : World) :
    mainConnect b e dev win cart port fuel w ≠ .fault := by
  unfold mainConnect
  split
  · simp only
    split
    · simp
    · split
      · simp
      · split
        · simp
        · rename_i hacc
          exact absurd hacc (acceptLoop_no_fault _ _ _ _ _)
        · exact mainRun_no_fault _ _ _ _ _ _ _ _ _
  · exact mainRun_no_fault _ _ _ _ _ _ _ _ _

theorem mainConnect_total (b : Build) (e : Env) (dev win : Option Nat) (cart : CStr)
    (port : Int) (fuel : Nat) (w : World) (n k : Nat)
    (hs : e.shutdownAfter = some n) (hf : n + 1 ≤ fuel)
    (hk : 0 ≤ port → e.accept k ≠ none) (hkf : k + 1 ≤ fuel) :
    ∃ r, mainConnect b e dev win cart port fuel w = .ret r := by
  unfold mainConnect
  split
  · rename_i hport
    have hk := hk hport
    simp only
    split
    · exact ⟨_, rfl⟩
    · split
      · exact ⟨_, rfl⟩
      · obtain ⟨r, hr⟩ := acceptLoop_total e.accept
          (RegisterEventManager e.resolver port w).1 fuel 0 k
          ((GetEventManagerPort e.sockname (RegisterEventManager e.resolver port w).1
            (RegisterEventManager e.resolver port w).2).2.emit
            (Event.printfInt "%d\n"
              (GetEventManagerPort e.sockname (RegisterEventManager e.resolver port w).1
                (RegisterEventManager e.resolver port w).2).1))
          hk (by omega) (by omega)
        unfold GetEventManagerHandle
        rw [hr]
        exact mainRun_total _ _ _ _ _ _ _ _ _ n hs hf
  · exact mainRun_total _ _ _ _ _ _ _ _ _ n hs hf

theorem main_reach (b : Build) (e : Env) (argv : List CStr) (fuel : Nat)
    (h3 : ¬ argv.length < 3) (hnet : ¬ (b.win32 = true ∧ ¬ e.wsaStartupOk = true))
    (hglfw : e.glfwInitOk = true) (hwin : e.openWindow ≠ none)
    (hdev : e.createDevice (pifromOf argv) ≠ none) :
    main b e argv fuel =
      match ParseArgs ((argv.length : Int) - 3) (argv.drop 1) (-1) fuel with
      | .diverge => .diverge
      | .fault => .fault
      | .ret (_, port, out) =>
        mainConnect b e (e.createDevice (pifromOf argv)) (windowSlot b e) (cartOf argv) port
          fuel ⟨startupTrace b (pifromOf argv) ++ out, [], []⟩ := by
  have hi2 : argv.length - 2 < argv.length := by omega
  have hi1 : argv.length - 1 < argv.length := by omega
  have hp : argv[argv.length - 2]? = some (pifromOf argv) := by
    simp [pifromOf, List.getD, List.getElem?_eq_getElem hi2]
  have hc : argv[argv.length - 1]? = some (cartOf argv) := by
    simp [cartOf, List.getD, List.getElem?_eq_getElem hi1]
  obtain ⟨h, hh⟩ := Option.ne_none_iff_exists'.mp hwin
  unfold main
  simp only [h3, if_false, hnet, hglfw, not_true_eq_false, CreateWindow, hh, hp, hc, hdev]
  have h0 : ¬ ((0 : Int) < 0) := by omega
  simp only [h0, if_false]
  cases hpa : ParseArgs ((argv.length : Int) - 3) (argv.drop 1) (-1) fuel with
  | diverge => rfl
  | fault => rfl
  | ret r =>
    obtain ⟨rp, port, out⟩ := r
    have hz := (parseLoop_result_zero _ _ _ _ _ _ _ _ _ hpa).1
    subst hz
    simp only [ne_eq, not_true_eq_false, if_false]
    cases hw : b.win32 <;> cases hg : b.glfw3 <;>
      simp [World.init, World.emit, startupTrace, windowSlot, hw, hg, hh]

theorem parse_requestedPort (argv : List CStr) (fuel : Nat) (rp port : Int)
    (out : List Event)
    (h : ParseArgs ((argv.length : Int) - 3) (argv.drop 1) (-1) fuel = .ret (rp, port, out)) :
    requestedPort argv = port := by
  unfold ParseArgs at h
  have h2 := parseLoop_stable _ _ _ _ _ _ _ h (argv.length + 1) (by omega)
  unfold requestedPort ParseArgs
  rw [h2]

theorem parse_no_fault_main (argv : List CStr) (fuel : Nat) (h3 : ¬ argv.length < 3) :
    ParseArgs ((argv.length : Int) - 3) (argv.drop 1) (-1) fuel ≠ .fault := by
  unfold ParseArgs
  apply parseLoop_no_fault
  simp only [List.length_drop]
  omega

theorem parse_total_main (argv : List CStr) (fuel : Nat) (h3 : ¬ argv.length < 3)
    (hsp : ∀ a ∈ argv, peek a ≠ ' ') (hf : argv.length + 1 ≤ fuel) :
    ∃ out, ParseArgs ((argv.length : Int) - 3) (argv.drop 1) (-1) fuel =
      .ret (0, requestedPort argv, out) := by
  have hlen : ((argv.length : Int) - 3) + 1 ≤ ((argv.drop 1).length : Int) := by
    simp only [List.length_drop]
    omega
  have hsp' : ∀ a ∈ argv.drop 1, peek a ≠ ' ' := fun a ha => hsp a (List.mem_of_mem_drop ha)
  obtain ⟨r, hr⟩ := parseLoop_total ((argv.length : Int) - 3) (argv.drop 1) fuel 0 (-1) []
    hlen hsp' (by omega)
  obtain ⟨rp, port, out⟩ := r
  have hz := (parseLoop_result_zero _ _ _ _ _ _ _ _ _ hr).1
  have hp := parse_requestedPort argv fuel rp port out hr
  subst hz
  subst hp
  exact ⟨out, hr⟩

theorem main_code (b : Build) (e : Env) (argv : List CStr) (fuel : Nat) :
    main b e argv fuel = .diverge ∨
      ∃ w, main b e argv fuel = .ret ((firstFailure b e argv).exitCode, w) := by
  by_cases h3 : argv.length < 3
  · right
    simp [main, firstFailure, h3, Stage.exitCode]
  by_cases hnet : b.win32 = true ∧ ¬ e.wsaStartupOk = true
  · right
    simp [main, firstFailure, h3, hnet, Stage.exitCode]
  have hnet' : ¬ (b.win32 = true ∧ e.wsaStartupOk = false) := by simpa using hnet
  by_cases hglfw : e.glfwInitOk = true
  swap
  · right
    simp [main, firstFailure, h3, hnet, hnet', hglfw, Stage.exitCode]
  by_cases hwin : e.openWindow = none
  · right
    cases hg : b.glfw3 <;>
      simp [main, firstFailure, h3, hnet, hnet', hglfw, hwin, Stage.exitCode, CreateWindow, hg]
  have hi2 : argv.length - 2 < argv.length := by omega
  have hi1 : argv.length - 1 < argv.length := by omega
  have hp : argv[argv.length - 2]? = some (pifromOf argv) := by
    simp [pifromOf, List.getD, List.getElem?_eq_getElem hi2]
  have hc : argv[argv.length - 1]? = some (cartOf argv) := by
    simp [cartOf, List.getD, List.getElem?_eq_getElem hi1]
  by_cases hdev : e.createDevice (pifromOf argv) = none
  · right
    obtain ⟨h, hh⟩ := Option.ne_none_iff_exists'.mp hwin
    simp [main, firstFailure, h3, hnet, hnet', hglfw, hh, Stage.exitCode, CreateWindow, hp, hc, hdev]
  rw [main_reach b e argv fuel h3 hnet hglfw hwin hdev]
  cases hpa : ParseArgs ((argv.length : Int) - 3) (argv.drop 1) (-1) fuel with
  | diverge => left; rfl
  | fault => exact absurd hpa (parse_no_fault_main argv fuel h3)
  | ret r =>
    obtain ⟨rp, port, out⟩ := r
    have hport := parse_requestedPort argv fuel rp port out hpa
    simp only
    cases hm : mainConnect b e (e.createDevice (pifromOf argv)) (windowSlot b e) (cartOf argv)
        port fuel ⟨startupTrace b (pifromOf argv) ++ out, [], []⟩ with
    | diverge => left; rfl
    | fault => exact absurd hm (mainConnect_no_fault _ _ _ _ _ _ _ _)
    | ret r =>
      right
      obtain ⟨code, wf⟩ := r
      refine ⟨wf, ?_⟩
      congr 2
      have hrun : ∀ sfd cfd w, mainRun b e (e.createDevice (pifromOf argv)) (windowSlot b e)
          (cartOf argv) sfd cfd fuel w = .ret (code, wf) →
          code = (if e.loadCartridge (cartOf argv) ≠ 0 then 5 else 0) := by
        intro sfd cfd w hr
        rcases mainRun_ret _ _ _ _ _ _ _ _ _ _ _ hr with ⟨h1, h2, _⟩ | ⟨h1, h2, _⟩
        · simp [h1, h2]
        · simp [h1, h2]
      rcases mainConnect_ret _ _ _ _ _ _ _ _ _ _ hm with
        ⟨h1, h2⟩ | ⟨h1, h2, h3', _⟩ | ⟨h1, c, h2, h3', h4, _⟩ | ⟨h1, c, q, k, cl, h2, h3', _, _, h4⟩
      · have hneg : ¬ (0 ≤ requestedPort argv) := by omega
        rw [hrun _ _ _ h2]
        simp only [firstFailure, h3, hnet, hnet', hglfw, hwin, hdev, hneg, if_false, not_true_eq_false,
          false_and]
        split <;> rfl
      · rw [h3']
        have hpos : 0 ≤ requestedPort argv := by omega
        rw [← hport] at h2
        simp [firstFailure, h3, hnet, hnet', hglfw, hwin, hdev, hpos, h2, Stage.exitCode]
      · rw [h4]
        have hpos : 0 ≤ requestedPort argv := by omega
        simp [firstFailure, h3, hnet, hnet', hglfw, hwin, hdev, hpos, h3', Stage.exitCode]
      · have hpos : 0 ≤ requestedPort argv := by omega
        rw [← hport] at h2
        rw [hrun _ _ _ h4]
        simp only [firstFailure, h3, hnet, hnet', hglfw, hwin, hdev, hpos, h2, h3', if_false,
          not_true_eq_false, true_and, or_self]
        simp only [reduceCtorEq, if_false]
        split <;> rfl

theorem main_total (b : Build) (e : Env) (argv : List CStr) (fuel n k : Nat)
    (hsp : ∀ a ∈ argv, peek a ≠ ' ') (hacc : 0 ≤ requestedPort argv → e.accept k ≠ none)
    (hs : e.shutdownAfter = some n)
    (hf : argv.length + 1 ≤ fuel ∧ k + 1 ≤ fuel ∧ n + 1 ≤ fuel) :
    ∃ w, main b e argv fuel = .ret ((firstFailure b e argv).exitCode, w) := by
  rcases main_code b e argv fuel with hd | hr
  swap
  · exact hr
  exfalso
  revert hd
  by_cases h3 : argv.length < 3
  · simp [main, h3]
  by_cases hnet : b.win32 = true ∧ ¬ e.wsaStartupOk = true
  · simp [main, h3, hnet]
  have hnet' : ¬ (b.win32 = true ∧ e.wsaStartupOk = false) := by simpa using hnet
  by_cases hglfw : e.glfwInitOk = true
  swap
  · simp [main, h3, hnet, hnet', hglfw]
  by_cases hwin : e.openWindow = none
  · cases hg : b.glfw3 <;>
      simp [main, h3, hnet, hnet', hglfw, hwin, CreateWindow, hg]
  have hi2 : argv.length - 2 < argv.length := by omega
  have hi1 : argv.length - 1 < argv.length := by omega
  have hp : argv[argv.length - 2]? = some (pifromOf argv) := by
    simp [pifromOf, List.getD, List.getElem?_eq_getElem hi2]
  have hc : argv[argv.length - 1]? = some (cartOf argv) := by
    simp [cartOf, List.getD, List.getElem?_eq_getElem hi1]
  by_cases hdev : e.createDevice (pifromOf argv) = none
  · obtain ⟨h, hh⟩ := Option.ne_none_iff_exists'.mp hwin
    simp [main, h3, hnet, hnet', hglfw, hh, CreateWindow, hp, hc, hdev]
  rw [main_reach b e argv fuel h3 hnet hglfw hwin hdev]
  obtain ⟨out, hout⟩ := parse_total_main argv fuel h3 hsp hf.1
  rw [hout]
  simp only
  obtain ⟨r, hr⟩ := mainConnect_total b e (e.createDevice (pifromOf argv)) (windowSlot b e)
    (cartOf argv) (requestedPort argv) fuel
    ⟨startupTrace b (pifromOf argv) ++ out, [], []⟩ n k hs hf.2.2 hacc hf.2.1
  rw [hr]
  simp

theorem digits_split (u : CStr) :
    (u ≠ [] ∧ u.all isdigit = true ∧ u.takeWhile isdigit = u ∧ u.dropWhile isdigit = []) ∨
    (¬ (u ≠ [] ∧ u.all isdigit = true) ∧
      (u.takeWhile isdigit = [] ∨ ∃ c rest, u.dropWhile isdigit = c :: rest ∧ c ∈ u)) := by
  by_cases h : u ≠ [] ∧ u.all isdigit = true
  · left
    have hall : ∀ x ∈ u, isdigit x = true := by simpa using h.2
    exact ⟨h.1, h.2, List.takeWhile_eq_self_iff.mpr hall, List.dropWhile_eq_nil_iff.mpr hall⟩
  · right
    refine ⟨h, ?_⟩
    by_cases hu : u = []
    · left; simp [hu]
    · right
      have hnall : ¬ (∀ x ∈ u, isdigit x = true) := by
        intro hall
        exact h ⟨hu, by simpa using hall⟩
      cases hd : u.dropWhile isdigit with
      | nil => exact absurd (List.dropWhile_eq_nil_iff.mp hd) hnall
      | cons c rest =>
        refine ⟨c, rest, rfl, ?_⟩
        have hsub := (List.dropWhile_sublist isdigit (l := u)).subset
        rw [hd] at hsub
        exact hsub (List.mem_cons_self c rest)

theorem badPortValue_iff (v : CStr) :
    badPortValue v = true ↔
      (numericValue v = none ∨ ∃ n, numericValue v = some n ∧ (n < 0 ∨ 65535 < n)) := by
  unfold badPortValue
  cases numericValue v with
  | none => simp
  | some n => simp

theorem strtol_bad (v : CStr) (hv : Char.ofNat 0 ∉ v) (hbad : badPortValue v = true)
    (num : Int) (endptr : CStr) (hst : strtol v = (num, endptr)) :
    (peek v = Char.ofNat 0 ∨ peek endptr ≠ Char.ofNat 0) ∨ (num < 0 ∨ num > 65535) := by
  rw [badPortValue_iff] at hbad
  have hem : peek v = Char.ofNat 0 ∨ peek v ≠ Char.ofNat 0 := Classical.em _
  have htv : ∀ x ∈ v.dropWhile isspace, x ∈ v :=
    fun x hx => (List.dropWhile_sublist isspace (l := v)).subset hx
  unfold numericValue at hbad
  unfold strtol at hst
  -- the shape of the value after the white space
  rcases ht : v.dropWhile isspace with _ | ⟨c, ds⟩
  · rw [ht] at hst
    simp [peek] at hst
    left
    rw [← hst.2]
    exact hem
  · rw [ht] at hst hbad htv
    by_cases hc1 : c = '-'
    · subst hc1
      simp only [peek, List.headD_cons, true_or, if_true, List.drop_one, List.tail_cons,
        decide_True] at hst
      rcases digits_split ds with ⟨h1, h2, h3, h4⟩ | ⟨h1, h2⟩
      · rw [h3, h4] at hst
        simp only [h1, if_false, if_true, Prod.mk.injEq] at hst
        simp only [ne_eq, h1, not_false_eq_true, h2, and_self, if_true] at hbad
        right
        rcases hbad with hbad | ⟨n, hn, hr⟩
        · simp at hbad
        · simp only [Option.some.injEq] at hn
          rw [← hst.1]
          unfold LONG_MIN
          omega
      · left
        rcases h2 with h2 | ⟨c, rest, h2, h3⟩
        · rw [h2] at hst
          simp at hst
          rw [← hst.2]
          exact hem
        · by_cases htw : ds.takeWhile isdigit = []
          · rw [htw] at hst
            simp at hst
            rw [← hst.2]
            exact hem
          · simp only [htw, if_false, Prod.mk.injEq] at hst
            right
            rw [← hst.2, h2]
            simp only [peek, List.headD_cons]
            intro hc0
            apply hv
            apply htv
            rw [← hc0]
            exact List.mem_cons_of_mem _ h3
    · by_cases hc2 : c = '+'
      · subst hc2
        have hne : ¬ ('+' = '-') := by decide
        simp only [peek, List.headD_cons, hne, or_true, if_true, List.drop_one, List.tail_cons,
          decide_False] at hst
        rcases digits_split ds with ⟨h1, h2, h3, h4⟩ | ⟨h1, h2⟩
        · rw [h3, h4] at hst
          simp only [h1, if_false, Prod.mk.injEq] at hst
          simp only [ne_eq, h1, not_false_eq_true, h2, and_self, if_true] at hbad
          right
          rcases hbad with hbad | ⟨n, hn, hr⟩
          · simp at hbad
          · simp only [Option.some.injEq] at hn
            rw [← hst.1]
            unfold LONG_MAX
            simp only [Bool.false_eq_true, if_false]
            omega
        · left
          rcases h2 with h2 | ⟨c, rest, h2, h3⟩
          · rw [h2] at hst
            simp at hst
            rw [← hst.2]
            exact hem
          · by_cases htw : ds.takeWhile isdigit = []
            · rw [htw] at hst
              simp at hst
              rw [← hst.2]
              exact hem
            · simp only [htw, if_false, Prod.mk.injEq] at hst
              right
              rw [← hst.2, h2]
              simp only [peek, List.headD_cons]
              intro hc0
              apply hv
              apply htv
              rw [← hc0]
              exact List.mem_cons_of_mem _ h3
      · simp only [peek, List.headD_cons, hc1, hc2, or_self, if_false, decide_False] at hst
        have hb2 : (if (c :: ds) ≠ [] ∧ (c :: ds).all isdigit = true
            then some ((digitsValue (c :: ds) : Nat) : Int) else none) = none ∨
            ∃ n, (if (c :: ds) ≠ [] ∧ (c :: ds).all isdigit = true
              then some ((digitsValue (c :: ds) : Nat) : Int) else none) = some n ∧
              (n < 0 ∨ 65535 < n) := by
          revert hbad
          split
          · rename_i ds' heq
            simp only [List.cons.injEq] at heq
            exact absurd heq.1 hc1
          · rename_i ds' heq
            simp only [List.cons.injEq] at heq
            exact absurd heq.1 hc2
          · exact fun h => h
        rcases digits_split (c :: ds) with ⟨h1, h2, h3, h4⟩ | ⟨h1, h2⟩
        · rw [h3, h4] at hst
          simp only [h1, if_false, Prod.mk.injEq] at hst
          simp only [ne_eq, h1, not_false_eq_true, h2, and_self, if_true] at hb2
          right
          rcases hb2 with hb2 | ⟨n, hn, hr⟩
          · simp at hb2
          · simp only [Option.some.injEq] at hn
            rw [← hst.1]
            unfold LONG_MAX
            simp only [Bool.false_eq_true, if_false]
            omega
        · left
          rcases h2 with h2 | ⟨c', rest, h2, h3⟩
          · rw [h2] at hst
            simp at hst
            rw [← hst.2]
            exact hem
          · by_cases htw : (c :: ds).takeWhile isdigit = []
            · rw [htw] at hst
              simp at hst
              rw [← hst.2]
              exact hem
            · simp only [htw, if_false, Prod.mk.injEq] at hst
              right
              rw [← hst.2, h2]
              simp only [peek, List.headD_cons]
              intro hc0
              apply hv
              apply htv
              rw [← hc0]
              exact h3

theorem parseIter_port_bad (v pif cart : CStr) (hv : Char.ofNat 0 ∉ v)
    (hbad : badPortValue v = true) (f : Nat) (port : Int) :
    ∃ diag, (diag = "-port: Needs a numeric argument.\n" ∨
        diag = "-port: Argument must be in range: 0..65535.\n") ∧
      parseIter 2 ["-port".toList, v, pif, cart] (f + 1) 0 port =
        .next 2 port [Event.readArg 0, Event.readArg 1, Event.printf diag] := by
  have h1 : skipSwitch "-port".toList = "port".toList := by decide
  have h2 : ¬ ("port".toList = "controller".toList) := by decide
  have h3 : ¬ ("port".toList = "eeprom".toList) := by decide
  have h4 : peek "-port".toList ≠ ' ' := by decide
  have h5 : ((0 : Nat) : Int) < 2 := by omega
  rcases hst : strtol v with ⟨num, endptr⟩
  have hb := strtol_bad v hv hbad num endptr hst
  unfold parseIter
  simp only [h5, not_true_eq_false, if_false, List.getElem?_cons_zero, spin_succ, h4, h1, h2,
    h3, if_true, zero_add, List.getElem?_cons_succ, hst]
  by_cases hn : peek v = Char.ofNat 0 ∨ peek endptr ≠ Char.ofNat 0
  · exact ⟨"-port: Needs a numeric argument.\n", Or.inl rfl, by simp only [hn, if_true]⟩
  · have hr : num < 0 ∨ num > 65535 := by
      rcases hb with hb | hb
      · exact absurd hb hn
      · exact hb
    exact ⟨"-port: Argument must be in range: 0..65535.\n", Or.inr rfl,
      by simp only [hn, if_false, hr, if_true]⟩

theorem parse_bad_port (v pif cart : CStr) (hv : Char.ofNat 0 ∉ v)
    (hbad : badPortValue v = true) (fuel : Nat) :
    ∃ diag, (diag = "-port: Needs a numeric argument.\n" ∨
        diag = "-port: Argument must be in range: 0..65535.\n") ∧
      ParseArgs 2 ["-port".toList, v, pif, cart] (-1) (fuel + 2) =
        .ret (0, -1, [Event.readArg 0, Event.readArg 1, Event.printf diag]) := by
  obtain ⟨diag, hd, hit⟩ := parseIter_port_bad v pif cart hv hbad (fuel + 1) (-1)
  refine ⟨diag, hd, ?_⟩
  have hexit : parseIter 2 ["-port".toList, v, pif, cart] (fuel + 1) 2 (-1) = .exit := by
    have h5 : ¬ (((2 : Nat) : Int) < 2) := by omega
    unfold parseIter
    simp only [h5, not_false_eq_true, if_true]
  unfold ParseArgs
  rw [parseLoop, hit]
  simp only
  rw [parseLoop, hexit]
  simp

theorem stage_reached (b : Build) (e : Env) (argv : List CStr)
    (h : firstFailure b e argv = .cartridgeLoad ∨ firstFailure b e argv = .cleanStop) :
    ¬ argv.length < 3 ∧ ¬ (b.win32 = true ∧ ¬ e.wsaStartupOk = true) ∧
    e.glfwInitOk = true ∧ e.openWindow ≠ none ∧ e.createDevice (pifromOf argv) ≠ none ∧
    ¬ (0 ≤ requestedPort argv ∧
      (firstGood (e.resolver (requestedPort argv)) = none ∨ e.sockname = none)) ∧
    (firstFailure b e argv = .cleanStop → e.loadCartridge (cartOf argv) = 0) := by
  unfold firstFailure at h ⊢
  split_ifs at h ⊢ with h1 h2 h3 h4 h5 h6 h7 <;> simp at h
  · refine ⟨h1, h2, by simpa using h3, h4, h5, h6, ?_⟩
    simp
  · refine ⟨h1, h2, by simpa using h3, h4, h5, h6, ?_⟩
    intro _
    simpa using h7

theorem ofParseArgs_quiet (x : Event) (h : x.ofParseArgs = true) :
    x.isRendezvous = false ∧ x ≠ Event.cycleDevice ∧ ∀ fd, x ≠ Event.close fd := by
  cases x <;> simp [Event.ofParseArgs, Event.isRendezvous] at h ⊢

theorem ofBind_quiet (x : Event) (h : x.ofBind = true) :
    x.isRendezvous = false ∧ x ≠ Event.cycleDevice := by
  cases x <;> simp [Event.ofBind, Event.isRendezvous] at h ⊢

theorem startupTrace_quiet (b : Build) (p : CStr) :
    ∀ x ∈ startupTrace b p, x.isRendezvous = false ∧ x ≠ Event.cycleDevice := by
  unfold startupTrace
  cases b.win32 <;> simp [Event.isRendezvous]

theorem teardown_events (b : Build) (dev win : Option Nat) (cfd : Int) :
    ∀ x ∈ releaseSteps b dev win (-1) cfd ++ processCleanup b,
      x.isRendezvous = false ∧ (∀ fd, x = Event.close fd → fd = cfd) ∧
        x ≠ Event.cycleDevice := by
  unfold releaseSteps processCleanup
  cases dev <;> cases win <;> cases b.win32 <;> cases b.glfw3 <;> by_cases h : cfd ≥ 0 <;>
    simp [Event.isRendezvous, h]

theorem parse_at (argv : List CStr) (fuel : Nat) (rp port : Int) (out : List Event)
    (h : ParseArgs ((argv.length : Int) - 3) (argv.drop 1) (-1) fuel = .ret (rp, port, out)) :
    rp = 0 ∧ port = requestedPort argv ∧ out = parsedEvents argv ∧
      parseReturns argv = true := by
  have hz := (parseLoop_result_zero _ _ _ _ _ _ _ _ _ h).1
  unfold ParseArgs at h
  have h2 := parseLoop_stable _ _ _ _ _ _ _ h (argv.length + 1) (by omega)
  unfold requestedPort parsedEvents parseReturns ParseArgs
  rw [h2]
  exact ⟨hz, rfl, rfl, rfl⟩

theorem parse_live (argv : List CStr) (fuel : Nat) (hp : parseReturns argv = true)
    (hf : argv.length + 1 ≤ fuel) :
    ParseArgs ((argv.length : Int) - 3) (argv.drop 1) (-1) fuel =
      .ret (0, requestedPort argv, parsedEvents argv) := by
  cases h : ParseArgs ((argv.length : Int) - 3) (argv.drop 1) (-1) (argv.length + 1) with
  | diverge => unfold parseReturns at hp; rw [h] at hp; simp at hp
  | fault => unfold parseReturns at hp; rw [h] at hp; simp at hp
  | ret r =>
    obtain ⟨rp, port, out⟩ := r
    obtain ⟨h1, h2, h3, _⟩ := parse_at argv _ rp port out h
    subst h1
    rw [← h2, ← h3]
    unfold ParseArgs at h ⊢
    exact parseLoop_stable _ _ _ _ _ _ _ h fuel (by omega)

theorem parseReturns_of_nospace (argv : List CStr) (h3 : ¬ argv.length < 3)
    (hsp : ∀ a ∈ argv, peek a ≠ ' ') : parseReturns argv = true := by
  obtain ⟨out, hout⟩ := parse_total_main argv (argv.length + 1) h3 hsp (Nat.le_refl _)
  exact (parse_at argv _ _ _ _ hout).2.2.2

theorem first_accept_unique (accept : Nat → Option Nat) (j j' a a' : Nat)
    (h1 : accept j = some a) (m1 : ∀ i, i < j → accept i = none)
    (h2 : accept j' = some a') (m2 : ∀ i, i < j' → accept i = none) :
    j = j' ∧ a = a' := by
  have hj : j = j' := by
    rcases Nat.lt_trichotomy j j' with h | h | h
    · have := m2 j h
      rw [h1] at this
      simp at this
    · exact h
    · have := m1 j' h
      rw [h2] at this
      simp at this
  subst hj
  rw [h1] at h2
  exact ⟨rfl, Option.some.inj h2⟩

theorem first_accept_exists (accept : Nat → Option Nat) (k : Nat) (hk : accept k ≠ none) :
    ∃ j client, accept j = some client ∧ (∀ i, i < j → accept i = none) ∧ j ≤ k := by
  obtain ⟨r, hr⟩ := acceptLoop_total accept 0 (k + 1) 0 k World.init hk (by omega) (by omega)
  obtain ⟨cfd, w'⟩ := r
  obtain ⟨j, client, h1, h2, _, _⟩ := acceptLoop_ret _ _ _ _ _ _ _ hr
  refine ⟨j, client, by simpa using h1, fun i hi => by simpa using h2 i hi, ?_⟩
  by_contra hlt
  have := h2 k (by omega)
  simp at this
  exact hk this

theorem acceptLoop_exact (accept : Nat → Option Nat) (sfd : Int) (fuel j client : Nat)
    (w : World) (h1 : accept j = some client) (m1 : ∀ i, i < j → accept i = none)
    (hf : j + 1 ≤ fuel) :
    acceptLoop accept sfd fuel 0 w =
      .ret ((client : Int),
        ⟨w.trace ++ List.replicate j (Event.accept sfd (-1)) ++ [Event.accept sfd client],
          (client : Int) :: w.openSockets, w.teardowns⟩) := by
  have hne : accept j ≠ none := by rw [h1]; simp
  obtain ⟨r, hr⟩ := acceptLoop_total accept sfd fuel 0 j w hne (by omega) (by omega)
  obtain ⟨cfd, w'⟩ := r
  obtain ⟨j', client', h2, m2, h3, h4⟩ := acceptLoop_ret _ _ _ _ _ _ _ hr
  have hu := first_accept_unique accept j j' client client' h1 m1 (by simpa using h2)
    (fun i hi => by simpa using m2 i hi)
  obtain ⟨hj, hc⟩ := hu
  subst hj
  subst hc
  rw [hr, h3, h4]

theorem mainRun_live (b : Build) (e : Env) (dev win : Option Nat) (cart : CStr)
    (sfd cfd : Int) (fuel : Nat) (w : World) (n : Nat)
    (hs : e.loadCartridge cart ≠ 0 ∨ e.shutdownAfter = some n) (hf : n + 1 ≤ fuel) :
    ∃ r, mainRun b e dev win cart sfd cfd fuel w = .ret r := by
  rcases hs with hs | hs
  · unfold mainRun
    simp only [ne_eq, hs, not_false_eq_true, if_true]
    exact ⟨_, rfl⟩
  · exact mainRun_total b e dev win cart sfd cfd fuel w n hs hf

theorem mainConnect_pass (b : Build) (e : Env) (dev win : Option Nat) (cart : CStr)
    (port : Int) (fuel : Nat) (w : World) (c : Candidate) (q j client : Nat)
    (hp : 0 ≤ port) (hc : firstGood (e.resolver port) = some c) (hq : e.sockname = some q)
    (h1 : e.accept j = some client) (m1 : ∀ i, i < j → e.accept i = none)
    (hf : j + 1 ≤ fuel) :
    mainConnect b e dev win cart port fuel w =
      mainRun b e dev win cart (-1) (client : Int) fuel
        ⟨(RegisterEventManager e.resolver port w).2.trace ++
            rendezvousSteps b (fdResult c.socket) ((q % 65536 : Nat) : Int) j client,
          (((client : Int) :: (RegisterEventManager e.resolver port w).2.openSockets).erase
            (fdResult c.socket)),
          (RegisterEventManager e.resolver port w).2.teardowns⟩ := by
  have hspec := RegisterEventManager_spec e.resolver port w
  rw [hc] at hspec
  obtain ⟨fd, _, hfd2⟩ := firstGood_socket _ _ hc
  have hs1 : (RegisterEventManager e.resolver port w).1 = fdResult c.socket := hspec.1
  have hnn : ¬ (fdResult c.socket < 0) := by rw [hfd2]; omega
  have hqn : ¬ (((q % 65536 : Nat) : Int) < 0) := by omega
  unfold mainConnect
  have hp' : port ≥ 0 := hp
  simp only [hp', if_true, hs1, hnn, if_false, GetEventManagerPort, hq, hqn,
    GetEventManagerHandle]
  rw [acceptLoop_exact e.accept (fdResult c.socket) fuel j client _ h1 m1 hf]
  simp only
  congr 1
  cases hw : b.win32 <;>
    simp [CloseEventManagerHandle, sysClose, World.emit, rendezvousSteps, hw]

theorem main_pass (b : Build) (e : Env) (argv : List CStr) (fuel : Nat) (c : Candidate)
    (q j client : Nat)
    (hstage : firstFailure b e argv = .cartridgeLoad ∨ firstFailure b e argv = .cleanStop)
    (hport : 0 ≤ requestedPort argv)
    (hc : firstGood (e.resolver (requestedPort argv)) = some c) (hq : e.sockname = some q)
    (h1 : e.accept j = some client) (m1 : ∀ i, i < j → e.accept i = none)
    (hparse : ParseArgs ((argv.length : Int) - 3) (argv.drop 1) (-1) fuel =
      .ret (0, requestedPort argv, parsedEvents argv))
    (hf : j + 1 ≤ fuel) :
    main b e argv fuel =
      mainRun b e (e.createDevice (pifromOf argv)) (windowSlot b e) (cartOf argv) (-1)
        (client : Int) fuel
        ⟨rendezvousPre b e argv ++
            rendezvousSteps b (fdResult c.socket) ((q % 65536 : Nat) : Int) j client,
          ((client : Int) :: [fdResult c.socket]).erase (fdResult c.socket), []⟩ := by
  obtain ⟨h3, hnet, hglfw, hwin, hdev, _, _⟩ := stage_reached b e argv hstage
  rw [main_reach b e argv fuel h3 hnet hglfw hwin hdev, hparse]
  simp only
  rw [mainConnect_pass b e _ _ _ _ fuel _ c q j client hport hc hq h1 m1 hf]
  have hspec := RegisterEventManager_spec e.resolver (requestedPort argv)
    ⟨startupTrace b (pifromOf argv) ++ parsedEvents argv, [], []⟩
  rw [hc] at hspec
  have hfr := RegisterEventManager_frame e.resolver (requestedPort argv)
    ⟨startupTrace b (pifromOf argv) ++ parsedEvents argv, [], []⟩
  rw [hspec.2.1, hfr.2]
  rfl

theorem mainConnect_live (b : Build) (e : Env) (dev win : Option Nat) (cart : CStr)
    (port : Int) (fuel : Nat) (w : World) (n k : Nat)
    (hs : e.loadCartridge cart ≠ 0 ∨ e.shutdownAfter = some n) (hf : n + 1 ≤ fuel)
    (hk : 0 ≤ port → e.accept k ≠ none) (hkf : k + 1 ≤ fuel) :
    ∃ r, mainConnect b e dev win cart port fuel w = .ret r := by
  unfold mainConnect
  split
  · rename_i hport
    have hk := hk hport
    simp only
    split
    · exact ⟨_, rfl⟩
    · split
      · exact ⟨_, rfl⟩
      · obtain ⟨r, hr⟩ := acceptLoop_total e.accept
          (RegisterEventManager e.resolver port w).1 fuel 0 k
          ((GetEventManagerPort e.sockname (RegisterEventManager e.resolver port w).1
            (RegisterEventManager e.resolver port w).2).2.emit
            (Event.printfInt "%d\n"
              (GetEventManagerPort e.sockname (RegisterEventManager e.resolver port w).1
                (RegisterEventManager e.resolver port w).2).1))
          hk (by omega) (by omega)
        unfold GetEventManagerHandle
        rw [hr]
        exact mainRun_live _ _ _ _ _ _ _ _ _ n hs hf
  · exact mainRun_live _ _ _ _ _ _ _ _ _ n hs hf

theorem main_live (b : Build) (e : Env) (argv : List CStr) (fuel n k : Nat)
    (hparse : parseReturns argv = true)
    (hacc : 0 ≤ requestedPort argv → e.accept k ≠ none)
    (hs : e.loadCartridge (cartOf argv) ≠ 0 ∨ e.shutdownAfter = some n)
    (hf : argv.length + 1 ≤ fuel ∧ k + 1 ≤ fuel ∧ n + 1 ≤ fuel) :
    ∃ w, main b e argv fuel = .ret ((firstFailure b e argv).exitCode, w) := by
  rcases main_code b e argv fuel with hd | hr
  swap
  · exact hr
  exfalso
  revert hd
  by_cases h3 : argv.length < 3
  · simp [main, h3]
  by_cases hnet : b.win32 = true ∧ ¬ e.wsaStartupOk = true
  · simp [main, h3, hnet]
  have hnet' : ¬ (b.win32 = true ∧ e.wsaStartupOk = false) := by simpa using hnet
  by_cases hglfw : e.glfwInitOk = true
  swap
  · simp [main, h3, hnet, hnet', hglfw]
  by_cases hwin : e.openWindow = none
  · cases hg : b.glfw3 <;>
      simp [main, h3, hnet, hnet', hglfw, hwin, CreateWindow, hg]
  have hi2 : argv.length - 2 < argv.length := by omega
  have hi1 : argv.length - 1 < argv.length := by omega
  have hp : argv[argv.length - 2]? = some (pifromOf argv) := by
    simp [pifromOf, List.getD, List.getElem?_eq_getElem hi2]
  have hc : argv[argv.length - 1]? = some (cartOf argv) := by
    simp [cartOf, List.getD, List.getElem?_eq_getElem hi1]
  by_cases hdev : e.createDevice (pifromOf argv) = none
  · obtain ⟨h, hh⟩ := Option.ne_none_iff_exists'.mp hwin
    simp [main, h3, hnet, hnet', hglfw, hh, CreateWindow, hp, hc, hdev]
  rw [main_reach b e argv fuel h3 hnet hglfw hwin hdev, parse_live argv fuel hparse hf.1]
  simp only
  obtain ⟨r, hr⟩ := mainConnect_live b e (e.createDevice (pifromOf argv)) (windowSlot b e)
    (cartOf argv) (requestedPort argv) fuel
    ⟨startupTrace b (pifromOf argv) ++ parsedEvents argv, [], []⟩ n k hs hf.2.2 hacc hf.2.1
  rw [hr]
  simp

theorem main_ret_rendezvous (b : Build) (e : Env) (argv : List CStr) (fuel : Nat)
    (code : Int) (wf : World) (c : Candidate) (q j client : Nat)
    (hstage : firstFailure b e argv = .cartridgeLoad ∨ firstFailure b e argv = .cleanStop)
    (hport : 0 ≤ requestedPort argv)
    (hc : firstGood (e.resolver (requestedPort argv)) = some c) (hq : e.sockname = some q)
    (h1 : e.accept j = some client) (m1 : ∀ i, i < j → e.accept i = none)
    (hret : main b e argv fuel = .ret (code, wf)) :
    mainRun b e (e.createDevice (pifromOf argv)) (windowSlot b e) (cartOf argv) (-1)
        (client : Int) fuel
        ⟨rendezvousPre b e argv ++
            rendezvousSteps b (fdResult c.socket) ((q % 65536 : Nat) : Int) j client,
          ((client : Int) :: [fdResult c.socket]).erase (fdResult c.socket), []⟩ =
      .ret (code, wf) := by
  obtain ⟨h3, hnet, hglfw, hwin, hdev, _, _⟩ := stage_reached b e argv hstage
  have hret' := hret
  rw [main_reach b e argv fuel h3 hnet hglfw hwin hdev] at hret'
  cases hpa : ParseArgs ((argv.length : Int) - 3) (argv.drop 1) (-1) fuel with
  | diverge => rw [hpa] at hret'; simp at hret'
  | fault => rw [hpa] at hret'; simp at hret'
  | ret r =>
    obtain ⟨rp, port, out⟩ := r
    obtain ⟨hz, hpo, hout, _⟩ := parse_at argv fuel rp port out hpa
    subst hz hpo hout
    rw [hpa] at hret'
    simp only at hret'
    rcases mainConnect_ret _ _ _ _ _ _ _ _ _ _ hret' with
      ⟨hn, _⟩ | ⟨_, h2, _⟩ | ⟨_, c', h2, h4, _⟩ | ⟨_, _⟩
    · omega
    · rw [hc] at h2; simp at h2
    · rw [hq] at h4; simp at h4
    · have hfuel : j + 1 ≤ fuel := by
        by_contra hlt
        -- the accept loop cannot return before its first success
        unfold mainConnect at hret'
        have hp' : requestedPort argv ≥ 0 := hport
        have hspec := RegisterEventManager_spec e.resolver (requestedPort argv)
          ⟨startupTrace b (pifromOf argv) ++ parsedEvents argv, [], []⟩
        rw [hc] at hspec
        obtain ⟨fd, _, hfd2⟩ := firstGood_socket _ _ hc
        have hnn : ¬ (fdResult c.socket < 0) := by rw [hfd2]; omega
        have hqn : ¬ (((q % 65536 : Nat) : Int) < 0) := by omega
        simp only [hp', if_true, hspec.1, hnn, if_false, GetEventManagerPort, hq, hqn,
          GetEventManagerHandle] at hret'
        split at hret'
        · simp at hret'
        · simp at hret'
        · rename_i cfd w1 hacc
          have hbound : ∀ (f s : Nat) (w0 : World) (r : Int × World),
              acceptLoop e.accept (fdResult c.socket) f s w0 = .ret r → s ≤ j → j + 1 ≤ s + f := by
            intro f
            induction f with
            | zero => intro s w0 r hr; simp [acceptLoop] at hr
            | succ m ih =>
              intro s w0 r hr hs
              rw [acceptLoop] at hr
              by_cases hsj : s = j
              · omega
              · have hlt2 : s < j := by omega
                have hnone := m1 s hlt2
                simp only [hnone, fdResult] at hr
                have hneg : ((-1 : Int) < 0) := by omega
                simp only [hneg, if_true] at hr
                have := ih (s + 1) _ r hr (by omega)
                omega
          have := hbound fuel 0 _ _ hacc (by omega)
          omega
      rw [← main_pass b e argv fuel c q j client hstage hport hc hq h1 m1 hpa hfuel]
      exact hret

theorem parsedEvents_ofParseArgs (argv : List CStr) :
    ∀ x ∈ parsedEvents argv, x.ofParseArgs = true := by
  unfold parsedEvents
  cases h : ParseArgs ((argv.length : Int) - 3) (argv.drop 1) (-1) (argv.length + 1) with
  | diverge => simp
  | fault => simp
  | ret r =>
    obtain ⟨rp, port, out⟩ := r
    obtain ⟨_, ev, hev1, hev2⟩ := parseLoop_result_zero _ _ _ _ _ _ _ _ _ h
    simp only [List.nil_append] at hev1
    subst hev1
    exact hev2

theorem rendezvousPre_quiet (b : Build) (e : Env) (argv : List CStr) :
    ∀ x ∈ rendezvousPre b e argv, x.isRendezvous = false ∧ x ≠ Event.cycleDevice := by
  obtain ⟨⟨bev, hb1, hb2⟩, _⟩ := RegisterEventManager_frame e.resolver (requestedPort argv)
    ⟨startupTrace b (pifromOf argv) ++ parsedEvents argv, [], []⟩
  intro x hx
  unfold rendezvousPre at hx
  rw [hb1] at hx
  rcases List.mem_append.mp hx with hx | hx
  · rcases List.mem_append.mp hx with hx | hx
    · exact startupTrace_quiet b _ x hx
    · have := ofParseArgs_quiet x (parsedEvents_ofParseArgs argv x hx)
      exact ⟨this.1, this.2.1⟩
  · exact ofBind_quiet x (hb2 x hx)

theorem stage_bound (b : Build) (e : Env) (argv : List CStr)
    (hstage : firstFailure b e argv = .cartridgeLoad ∨ firstFailure b e argv = .cleanStop)
    (hport : 0 ≤ requestedPort argv) :
    ∃ c q, firstGood (e.resolver (requestedPort argv)) = some c ∧ e.sockname = some q := by
  obtain ⟨_, _, _, _, _, hsock, _⟩ := stage_reached b e argv hstage
  cases hc : firstGood (e.resolver (requestedPort argv)) with
  | none => exact absurd ⟨hport, Or.inl hc⟩ hsock
  | some c =>
    cases hq : e.sockname with
    | none => exact absurd ⟨hport, Or.inr hq⟩ hsock
    | some q => exact ⟨c, q, rfl, rfl⟩

theorem parseIter_bad_port (v : CStr) (hv : Char.ofNat 0 ∉ v) (hbad : badPortValue v = true)
    (args : Int) (argv : List CStr) (i f : Nat) (port : Int) (sw : CStr)
    (hi : (i : Int) < args) (ha : argv[i]? = some sw) (hns : peek sw ≠ ' ')
    (hsw : skipSwitch sw = "port".toList) (hval : argv[i + 1]? = some v) :
    ∃ diag, (diag = "-port: Needs a numeric argument.\n" ∨
        diag = "-port: Argument must be in range: 0..65535.\n") ∧
      parseIter args argv (f + 1) i port =
        .next (i + 2) port [Event.readArg i, Event.readArg (i + 1), Event.printf diag] := by
  have h2 : ¬ ("port".toList = "controller".toList) := by decide
  have h3 : ¬ ("port".toList = "eeprom".toList) := by decide
  rcases hst : strtol v with ⟨num, endptr⟩
  have hb := strtol_bad v hv hbad num endptr hst
  unfold parseIter
  simp only [hi, not_true_eq_false, if_false, ha, spin_succ, hns, hsw, h2, h3, if_true, hval,
    hst]
  by_cases hn : peek v = Char.ofNat 0 ∨ peek endptr ≠ Char.ofNat 0
  · exact ⟨"-port: Needs a numeric argument.\n", Or.inl rfl, by simp only [hn, if_true]⟩
  · have hr : num < 0 ∨ num > 65535 := by
      rcases hb with hb | hb
      · exact absurd hb hn
      · exact hb
    exact ⟨"-port: Argument must be in range: 0..65535.\n", Or.inr rfl,
      by simp only [hn, if_false, hr, if_true]⟩

theorem ofParseArgs_noChannel (x : Event) (h : x.ofParseArgs = true) :
    x.opensChannel = false := by
  cases x <;> simp [Event.ofParseArgs, Event.opensChannel] at h ⊢

theorem startupTrace_noChannel (b : Build) (p : CStr) :
    ∀ x ∈ startupTrace b p, x.opensChannel = false := by
  unfold startupTrace
  cases b.win32 <;> simp [Event.opensChannel]

theorem teardown_noChannel (b : Build) (dev win : Option Nat) (sfd cfd : Int) :
    ∀ x ∈ releaseSteps b dev win sfd cfd ++ processCleanup b, x.opensChannel = false := by
  unfold releaseSteps processCleanup
  cases dev <;> cases win <;> cases b.win32 <;> cases b.glfw3 <;> by_cases h : cfd ≥ 0 <;>
    by_cases h' : sfd ≥ 0 <;> simp [Event.opensChannel, h, h']

theorem stage_no_port (b : Build) (e : Env) (argv : List CStr)
    (hneg : requestedPort argv < 0) : firstFailure b e argv ≠ .controlSocket := by
  have hn : ¬ (0 ≤ requestedPort argv) := by omega
  unfold firstFailure
  split_ifs <;> simp_all

theorem main_noChannel (b : Build) (e : Env) (argv : List CStr) (fuel : Nat) (code : Int)
    (w : World) (hneg : requestedPort argv < 0)
    (h : main b e argv fuel = .ret (code, w)) :
    ∀ x ∈ w.trace, x.opensChannel = false := by
  by_cases h3 : argv.length < 3
  · simp [main, h3, World.init, World.emit] at h
    rw [← h.2]
    simp [Event.opensChannel]
  by_cases hnet : b.win32 = true ∧ ¬ e.wsaStartupOk = true
  · have hnet' : b.win32 = true ∧ e.wsaStartupOk = false := by simpa using hnet
    simp only [main, h3, if_false, hnet.1, if_true] at h
    simp [hnet'.2] at h
    rw [← h.2, DestroyResources_trace]
    intro x hx
    rw [List.append_assoc] at hx
    rcases List.mem_append.mp hx with hx | hx
    · simp [World.init, World.emit] at hx
      rcases hx with hx | hx <;> subst hx <;> rfl
    · exact teardown_noChannel _ _ _ _ _ x hx
  have hnet' : ¬ (b.win32 = true ∧ e.wsaStartupOk = false) := by simpa using hnet
  by_cases hglfw : e.glfwInitOk = true
  swap
  · simp [main, h3, hnet, hnet', hglfw] at h
    rw [← h.2]
    cases hw : b.win32 <;> simp [World.init, World.emit, Event.opensChannel]
  by_cases hwin : e.openWindow = none
  · have h' : ∃ rc : Int, rc < 0 ∧ CreateWindow b e.openWindow none
        ((if b.win32 then World.init.emit .wsaStartup else World.init).emit .glfwInit) =
        (rc, none, ((if b.win32 then World.init.emit .wsaStartup else World.init).emit
          .glfwInit).emit .openWindow) := by
      cases hg : b.glfw3
      · exact ⟨-2, by omega, by simp [CreateWindow, hwin, hg]⟩
      · exact ⟨-1, by omega, by simp [CreateWindow, hwin, hg]⟩
    obtain ⟨rc, hrc, hcw⟩ := h'
    simp only [main, h3, if_false, hnet, hglfw, not_true_eq_false, hcw, hrc, if_true] at h
    simp only [Outcome.ret.injEq, Prod.mk.injEq] at h
    rw [← h.2, DestroyResources_trace]
    intro x hx
    rw [List.append_assoc] at hx
    rcases List.mem_append.mp hx with hx | hx
    · cases hw : b.win32 <;> simp [World.init, World.emit, hw] at hx <;>
        rcases hx with hx | hx | hx | hx <;> first | (subst hx; rfl) | rfl
    · exact teardown_noChannel _ _ _ _ _ x hx
  have hi2 : argv.length - 2 < argv.length := by omega
  have hi1 : argv.length - 1 < argv.length := by omega
  have hp : argv[argv.length - 2]? = some (pifromOf argv) := by
    simp [pifromOf, List.getD, List.getElem?_eq_getElem hi2]
  have hc : argv[argv.length - 1]? = some (cartOf argv) := by
    simp [cartOf, List.getD, List.getElem?_eq_getElem hi1]
  by_cases hdev : e.createDevice (pifromOf argv) = none
  · obtain ⟨hh, hhh⟩ := Option.ne_none_iff_exists'.mp hwin
    have h0 : ¬ ((0 : Int) < 0) := by omega
    simp only [main, h3, if_false, hnet, hglfw, not_true_eq_false, CreateWindow, hhh, hp, hc,
      hdev, h0, if_true] at h
    simp only [Outcome.ret.injEq, Prod.mk.injEq] at h
    rw [← h.2, DestroyResources_trace]
    intro x hx
    rw [List.append_assoc] at hx
    rcases List.mem_append.mp hx with hx | hx
    · cases hw : b.win32 <;> simp [World.init, World.emit, hw] at hx <;>
        rcases hx with hx | hx | hx | hx | hx <;> first | (subst hx; rfl) | rfl
    · exact teardown_noChannel _ _ _ _ _ x hx
  rw [main_reach b e argv fuel h3 hnet hglfw hwin hdev] at h
  cases hpa : ParseArgs ((argv.length : Int) - 3) (argv.drop 1) (-1) fuel with
  | diverge => rw [hpa] at h; simp at h
  | fault => rw [hpa] at h; simp at h
  | ret r =>
    obtain ⟨rp, port, out⟩ := r
    obtain ⟨hz, hpo, hout, _⟩ := parse_at argv fuel rp port out hpa
    subst hz hpo hout
    rw [hpa] at h
    simp only at h
    rcases mainConnect_ret _ _ _ _ _ _ _ _ _ _ h with
      ⟨_, hrun⟩ | ⟨hn, _⟩ | ⟨hn, _⟩ | ⟨hn, _⟩
    · have hstart : ∀ x ∈ startupTrace b (pifromOf argv) ++ parsedEvents argv,
          x.opensChannel = false := by
        intro x hx
        rcases List.mem_append.mp hx with hx | hx
        · exact startupTrace_noChannel b _ x hx
        · exact ofParseArgs_noChannel x (parsedEvents_ofParseArgs argv x hx)
      rcases mainRun_ret _ _ _ _ _ _ _ _ _ _ _ hrun with ⟨_, _, hw⟩ | ⟨_, _, n, _, hw⟩
      · rw [hw, DestroyResources_trace]
        intro x hx
        rw [List.append_assoc] at hx
        rcases List.mem_append.mp hx with hx | hx
        · rcases List.mem_append.mp hx with hx | hx
          · exact hstart x hx
          · simp at hx
            rcases hx with hx | hx <;> subst hx <;> rfl
        · exact teardown_noChannel _ _ _ _ _ x hx
      · rw [hw, DestroyResources_trace]
        intro x hx
        rw [List.append_assoc] at hx
        rcases List.mem_append.mp hx with hx | hx
        · simp only [List.mem_append] at hx
          rcases hx with (((hx | hx) | hx) | hx) | hx
          · exact hstart x (List.mem_append.mpr hx)
          · simp at hx
            rcases hx with hx | hx | hx <;> subst hx <;> rfl
          · simp [List.mem_replicate] at hx
            obtain ⟨_, hx⟩ := hx
            subst hx
            rfl
          · simp at hx
            rcases hx with hx | hx <;> subst hx <;> rfl
          · cases hnd : b.ndebug <;> simp [hnd] at hx
            subst hx
            rfl
        · exact teardown_noChannel _ _ _ _ _ x hx
    · omega
    · omega
    · omega

/-! ## Theorems -/

/-- C1 (failing input): in an environment where the control socket is bound
as descriptor 3 and the port read-back then fails, `main` exits with code 4
after one teardown call that receives -1 for the listening socket: socket 3
is never closed and is still open at exit. -/
theorem main_leaks_listening_socket :
    main glfw3Build leakEnv portZeroLine 5 = .ret (4, leakRun) ∧
    leakRun.openSockets = [3] ∧
    Event.close 3 ∉ leakRun.trace ∧
    leakRun.teardowns = [⟨some 1, some 7, -1, -1⟩] := by
  decide

/-- C2 (counterexample): called with every resource absent,
`DestroyResources` still performs an operation, `glfwTerminate`. -/
theorem DestroyResources_absent_not_silent :
    (DestroyResources posixBuild none none (-1) (-1) World.init).trace =
      [Event.glfwTerminate] ∧
    (DestroyResources posixBuild none none (-1) (-1) World.init).trace ≠
      World.init.trace := by
  decide

/-- C2 (amended): `DestroyResources` performs the release steps of exactly
the resources that are present, in the order device, display, client
socket, listening socket, followed by the process-wide cleanup
(`WSACleanup` under `_WIN32`, then `glfwTerminate`); with every resource
absent it performs the process-wide cleanup only. -/
theorem DestroyResources_steps (b : Build) (device window : Option Nat) (sfd cfd : Int)
    (w : World) :
    (DestroyResources b device window sfd cfd w).trace =
      w.trace ++ releaseSteps b device window sfd cfd ++ processCleanup b ∧
    (∀ n m : Nat, (DestroyResources b none none (-1 - (n : Int)) (-1 - (m : Int)) w).trace =
      w.trace ++ processCleanup b) := by
  refine ⟨DestroyResources_trace b device window sfd cfd w, ?_⟩
  intro n m
  rw [DestroyResources_trace]
  have h1 : ¬ (-1 - (n : Int) ≥ 0) := by omega
  have h2 : ¬ (-1 - (m : Int) ≥ 0) := by omega
  simp [releaseSteps, h1, h2]

/-- C5: `RegisterEventManager` returns the socket of the first candidate,
in resolver order, on which socket-create, bind and listen all succeed, and
then that socket is the only one it leaves open; when the resolver fails or
no candidate succeeds it returns -1 and leaves the open sockets as they
were; every `listen` it issues has backlog 1. -/
theorem RegisterEventManager_first_good (resolver : Int → Option (List Candidate))
    (port : Int) (w : World) :
    (RegisterEventManager resolver port w).1 =
        (match firstGood (resolver port) with
          | some c => fdResult c.socket
          | none => -1) ∧
    (RegisterEventManager resolver port w).2.openSockets =
        (match firstGood (resolver port) with
          | some c => fdResult c.socket :: w.openSockets
          | none => w.openSockets) ∧
    (∀ fd n r, Event.listen fd n r ∈ (RegisterEventManager resolver port w).2.trace →
        Event.listen fd n r ∈ w.trace ∨ n = 1) :=
  RegisterEventManager_spec resolver port w

/-- C5 (witness): in `goodEnv` the first candidate fails to bind and its
socket is closed; the second yields socket 3, the only one left open, and
the `listen` on it has backlog 1. -/
theorem RegisterEventManager_first_good_witness :
    (RegisterEventManager goodEnv.resolver 0 World.init).1 = 3 ∧
    (RegisterEventManager goodEnv.resolver 0 World.init).2.openSockets = [3] ∧
    Event.listen 3 1 0 ∈ (RegisterEventManager goodEnv.resolver 0 World.init).2.trace ∧
    (Event.listen 3 1 0 ∈ World.init.trace ∨ (1 : Int) = 1) :=
  ⟨(RegisterEventManager_first_good goodEnv.resolver 0 World.init).1,
    (RegisterEventManager_first_good goodEnv.resolver 0 World.init).2.1,
    by decide,
    (RegisterEventManager_first_good goodEnv.resolver 0 World.init).2.2 3 1 0 (by decide)⟩

/-- C9 (failing input): with `args = 1` and `-port` as the last option,
`ParseArgs` reads `argv[1]`, the PIF-ROM path beyond the options, and takes
it as the port value; `-sram` in the same place reads `argv[0]` only. -/
theorem ParseArgs_port_reads_past_args :
    ParseArgs 1 ["-port".toList, "pif.bin".toList, "cart.z64".toList] (-1) 2 =
      .ret (0, -1, [Event.readArg 0, Event.readArg 1,
        Event.printf "-port: Needs a numeric argument.\n"]) ∧
    ParseArgs 1 ["-port".toList, "8080".toList, "cart.z64".toList] (-1) 2 =
      .ret (0, 8080, [Event.readArg 0, Event.readArg 1]) ∧
    ParseArgs 1 ["-sram".toList, "pif.bin".toList, "cart.z64".toList] (-1) 2 =
      .ret (0, -1, [Event.readArg 0,
        Event.printf "-sram: Missing argument; ignoring.\n"]) := by
  decide

/-- C10 (failing input): when the first option begins with a space,
`ParseArgs` does not return, whatever the fuel: the statement
`while (*arg == ' ');` never advances `arg`. -/
theorem ParseArgs_leading_space_diverges (s : CStr) (rest : List CStr) (args : Nat)
    (port : Int) (fuel : Nat) :
    ParseArgs ((args : Int) + 1) ((' ' :: s) :: rest) port fuel = .diverge := by
  cases fuel with
  | zero => rfl
  | succ n =>
    have h : ((0 : Nat) : Int) < (args : Int) + 1 := by omega
    have hs : spin ' ' (n + 1) = none := by simp [spin_succ]
    simp [ParseArgs, parseLoop, parseIter, peek, hs, h]

/-- C3 (counterexample): `-port 70000` is an argument error, yet `main`
goes on and, the cartridge failing to load, exits with code 5, not 255. -/
theorem argument_error_exit_code :
    badPortValue "70000".toList = true ∧
    main posixBuild badCartEnv portBigLine 10 = .ret (5, bigPortRun) := by
  decide

/-- C3 (amended): whenever `main` returns, its exit code is the code of the
first failing stage: 0 usage-only, 1 network init, 2 display init or window
create, 3 device create, 4 control-socket bind or port read-back, 5
cartridge load, 0 clean stop; a malformed `-port` value is not a failing
stage and 255 is never returned. When no argument begins with a space,
`accept` eventually succeeds and shutdown is eventually requested, `main`
does return, for every sufficient fuel. -/
theorem main_exit_code (b : Build) (e : Env) (argv : List CStr) :
    (∀ fuel, main b e argv fuel = .diverge ∨
      ∃ w, main b e argv fuel = .ret ((firstFailure b e argv).exitCode, w)) ∧
    (firstFailure b e argv).exitCode ∈ [0, 1, 2, 3, 4, 5] ∧
    ((∀ a ∈ argv, peek a ≠ ' ') → (∃ k, e.accept k ≠ none) →
      (∃ n, e.shutdownAfter = some n) →
      ∃ fuel0, ∀ fuel, fuel0 ≤ fuel →
        ∃ w, main b e argv fuel = .ret ((firstFailure b e argv).exitCode, w)) := by
  refine ⟨main_code b e argv, ?_, ?_⟩
  · cases firstFailure b e argv <;> simp [Stage.exitCode]
  · intro hsp hacc hshut
    obtain ⟨k, hk⟩ := hacc
    obtain ⟨n, hn⟩ := hshut
    refine ⟨argv.length + 1 + (k + 1) + (n + 1), ?_⟩
    intro fuel hfuel
    exact main_total b e argv fuel n k hsp (fun _ => hk) hn ⟨by omega, by omega, by omega⟩

/-- C3 (witness): `cen64 pif.bin cart.z64` in `goodEnv` returns 0. -/
theorem main_exit_code_witness :
    (∀ a ∈ plainLine, peek a ≠ ' ') ∧ (∃ k, goodEnv.accept k ≠ none) ∧
    (∃ n, goodEnv.shutdownAfter = some n) ∧
    ∃ fuel0, ∀ fuel, fuel0 ≤ fuel →
      ∃ w, main posixBuild goodEnv plainLine fuel =
        .ret ((firstFailure posixBuild goodEnv plainLine).exitCode, w) :=
  ⟨by decide, ⟨2, by decide⟩, ⟨2, rfl⟩,
    (main_exit_code posixBuild goodEnv plainLine).2.2 (by decide) ⟨2, by decide⟩ ⟨2, rfl⟩⟩

/-- C4 (counterexample): for `-port abc`, `ParseArgs` returns 0 with the
port unset, and `main` runs the console and exits with code 0. -/
theorem bad_port_not_rejected :
    badPortValue "abc".toList = true ∧
    ParseArgs 2 (portAbcLine.drop 1) (-1) 10 =
      .ret (0, -1, [Event.readArg 0, Event.readArg 1,
        Event.printf "-port: Needs a numeric argument.\n"]) ∧
    main posixBuild goodEnv portAbcLine 10 = .ret (0, abcRun) := by
  decide

/-- C6: when a control port is requested, bind and port read-back succeed
and `accept` eventually succeeds, `main` (given enough fuel) performs, right
after the bind, exactly: read back the port, print it once with `"%d\n"`,
call `accept` until it succeeds, close the listening socket; it then goes
on to the cartridge load with the listening slot reset to -1. Nothing
before these steps reads back, prints a port or accepts. Every run that
ends has the trace `pre ++ steps ++ post`, where `post` neither reads back,
prints a port nor accepts, closes no socket but the client's, and the one
teardown call receives -1 as listening socket; and a run does end once the
cartridge fails to load or shutdown is requested. -/
theorem main_rendezvous_sequence (b : Build) (e : Env) (argv : List CStr) (k : Nat)
    (hport : 0 ≤ requestedPort argv)
    (hstage : firstFailure b e argv = .cartridgeLoad ∨ firstFailure b e argv = .cleanStop)
    (hparse : parseReturns argv = true)
    (hacc : e.accept k ≠ none) :
    ∃ (c : Candidate) (q j client : Nat),
      firstGood (e.resolver (requestedPort argv)) = some c ∧
      e.sockname = some q ∧ e.accept j = some client ∧ (∀ i, i < j → e.accept i = none) ∧
      (∀ x ∈ rendezvousPre b e argv, x.isRendezvous = false) ∧
      (∀ fuel, argv.length + 1 + (j + 1) ≤ fuel →
        main b e argv fuel =
          mainRun b e (e.createDevice (pifromOf argv))
            (if b.glfw3 then e.openWindow else none) (cartOf argv) (-1) (client : Int) fuel
            ⟨rendezvousPre b e argv ++
                rendezvousSteps b (fdResult c.socket) ((q % 65536 : Nat) : Int) j client,
              ((client : Int) :: [fdResult c.socket]).erase (fdResult c.socket), []⟩) ∧
      (∀ fuel code wf, main b e argv fuel = .ret (code, wf) →
        ∃ post : List Event,
          wf.trace = rendezvousPre b e argv ++
            rendezvousSteps b (fdResult c.socket) ((q % 65536 : Nat) : Int) j client ++ post ∧
          (∀ x ∈ post, x.isRendezvous = false) ∧
          (∀ fd, Event.close fd ∈ post → fd = (client : Int)) ∧
          wf.teardowns =
            [⟨e.createDevice (pifromOf argv), if b.glfw3 then e.openWindow else none, -1,
              (client : Int)⟩]) ∧
      (∀ n, (e.loadCartridge (cartOf argv) ≠ 0 ∨ e.shutdownAfter = some n) →
        ∀ fuel, argv.length + 1 + (j + 1) + (n + 1) ≤ fuel →
          ∃ code wf, main b e argv fuel = .ret (code, wf)) := by
  obtain ⟨c, q, hc, hq⟩ := stage_bound b e argv hstage hport
  obtain ⟨j, client, hj, hmin, _⟩ := first_accept_exists e.accept k hacc
  have hws : windowSlot b e = (if b.glfw3 then e.openWindow else none) := rfl
  refine ⟨c, q, j, client, hc, hq, hj, hmin, fun x hx => (rendezvousPre_quiet b e argv x hx).1,
    ?_, ?_, ?_⟩
  · intro fuel hf
    rw [← hws]
    exact main_pass b e argv fuel c q j client hstage hport hc hq hj hmin
      (parse_live argv fuel hparse (by omega)) (by omega)
  · intro fuel code wf hret
    have hrun := main_ret_rendezvous b e argv fuel code wf c q j client hstage hport hc hq hj
      hmin hret
    have htd := teardown_events b (e.createDevice (pifromOf argv)) (windowSlot b e)
      (client : Int)
    rw [← hws]
    rcases mainRun_ret _ _ _ _ _ _ _ _ _ _ _ hrun with ⟨_, _, hwf⟩ | ⟨_, _, n, _, hwf⟩
    · refine ⟨[Event.loadCartridge (cartOf argv), Event.printf "Failed to load the ROM.\n"] ++
          (releaseSteps b (e.createDevice (pifromOf argv)) (windowSlot b e) (-1)
            (client : Int) ++ processCleanup b), ?_, ?_, ?_, ?_⟩
      · rw [hwf, DestroyResources_trace]
        simp only [List.append_assoc]
      · intro x hx
        rcases List.mem_append.mp hx with hx | hx
        · simp at hx
          rcases hx with hx | hx <;> subst hx <;> rfl
        · exact (htd x hx).1
      · intro fd hx
        rcases List.mem_append.mp hx with hx | hx
        · simp at hx
        · exact (htd _ hx).2.1 fd rfl
      · rw [hwf, DestroyResources_teardowns]
        rfl
    · refine ⟨[Event.loadCartridge (cartOf argv), Event.debug "== Booting the Console ==",
            Event.signal] ++ List.replicate n Event.cycleDevice ++
          [Event.longjmp, Event.debug "== Destroying the Console =="] ++
          (if b.ndebug then [] else [Event.dumpStatistics]) ++
          (releaseSteps b (e.createDevice (pifromOf argv)) (windowSlot b e) (-1)
            (client : Int) ++ processCleanup b), ?_, ?_, ?_, ?_⟩
      · rw [hwf, DestroyResources_trace]
        simp only [List.append_assoc]
      · intro x hx
        rcases List.mem_append.mp hx with hx | hx
        · cases hnd : b.ndebug <;> simp [hnd] at hx <;>
            rcases hx with hx | hx | hx | hx | hx | hx <;>
            first
              | (subst hx; rfl)
              | (obtain ⟨_, hx⟩ := hx; subst hx; rfl)
              | (rcases hx with hx | hx <;> subst hx <;> rfl)
        · exact (htd x hx).1
      · intro fd hx
        rcases List.mem_append.mp hx with hx | hx
        · cases hnd : b.ndebug <;> simp [hnd] at hx
        · exact (htd _ hx).2.1 fd rfl
      · rw [hwf, DestroyResources_teardowns]
        rfl
  · intro n hs fuel hf
    have hne : e.accept j ≠ none := by rw [hj]; simp
    obtain ⟨w, hw⟩ := main_live b e argv fuel n j hparse (fun _ => hne) hs
      ⟨by omega, by omega, by omega⟩
    exact ⟨_, w, hw⟩

/-- C4 (amended): for every `-port` value that is not a number or is a
number outside 0..65535, wherever the option stands among the options,
`ParseArgs` prints one of its two diagnostics, leaves the port as it was
and goes on with the next option; `ParseArgs` returns 0 whenever it
returns. For the command line `prog -port v pif cart` it returns 0 with
the port unset, and `main` goes on without a control port: it performs no
operation that sets up the control channel, its exit code is that of the
first failing stage and is one of 0, 1, 2, 3, 5 (never 255), and it does
return once shutdown is requested. -/
theorem ParseArgs_bad_port_ignored (v : CStr) (hv : Char.ofNat 0 ∉ v)
    (hbad : badPortValue v = true) :
    (∀ (args : Int) (argv : List CStr) (i f : Nat) (port : Int) (out : List Event)
        (sw : CStr),
      (i : Int) < args → argv[i]? = some sw → peek sw ≠ ' ' →
      skipSwitch sw = "port".toList → argv[i + 1]? = some v →
      ∃ diag, (diag = "-port: Needs a numeric argument.\n" ∨
          diag = "-port: Argument must be in range: 0..65535.\n") ∧
        parseLoop args argv (f + 1) i port out =
          parseLoop args argv f (i + 2) port
            (out ++ [Event.readArg i, Event.readArg (i + 1), Event.printf diag])) ∧
    (∀ (args : Int) (argv : List CStr) (port : Int) (fuel : Nat) (r p : Int)
        (out : List Event),
      ParseArgs args argv port fuel = .ret (r, p, out) → r = 0) ∧
    (∀ (pif cart : CStr) (fuel : Nat), ∃ diag,
      (diag = "-port: Needs a numeric argument.\n" ∨
        diag = "-port: Argument must be in range: 0..65535.\n") ∧
      ParseArgs 2 ["-port".toList, v, pif, cart] (-1) (fuel + 2) =
        .ret (0, -1, [Event.readArg 0, Event.readArg 1, Event.printf diag])) ∧
    (∀ (b : Build) (e : Env) (prog pif cart : CStr),
      requestedPort [prog, "-port".toList, v, pif, cart] = -1 ∧
      (∀ (fuel : Nat) (code : Int) (w : World),
        main b e [prog, "-port".toList, v, pif, cart] fuel = .ret (code, w) →
        code = (firstFailure b e [prog, "-port".toList, v, pif, cart]).exitCode ∧
        code ∈ [0, 1, 2, 3, 5] ∧ (∀ x ∈ w.trace, x.opensChannel = false)) ∧
      (∀ n, e.shutdownAfter = some n → ∀ fuel, n + 7 ≤ fuel →
        ∃ w, main b e [prog, "-port".toList, v, pif, cart] fuel =
          .ret ((firstFailure b e [prog, "-port".toList, v, pif, cart]).exitCode, w))) := by
  refine ⟨?_, ?_, fun pif cart fuel => parse_bad_port v pif cart hv hbad fuel, ?_⟩
  · intro args argv i f port out sw hi ha hns hsw hval
    obtain ⟨diag, hd, hit⟩ := parseIter_bad_port v hv hbad args argv i f port sw hi ha hns hsw
      hval
    refine ⟨diag, hd, ?_⟩
    rw [parseLoop, hit]
  · intro args argv port fuel r p out h
    exact (parseLoop_result_zero _ _ _ _ _ _ _ _ _ h).1
  · intro b e prog pif cart
    obtain ⟨diag, _, hpa⟩ := parse_bad_port v pif cart hv hbad 4
    have hpa' : ParseArgs ((([prog, "-port".toList, v, pif, cart] : List CStr).length : Int) - 3)
        (([prog, "-port".toList, v, pif, cart] : List CStr).drop 1) (-1) 6 =
        .ret (0, -1, [Event.readArg 0, Event.readArg 1, Event.printf diag]) := by
      have hlen : ((([prog, "-port".toList, v, pif, cart] : List CStr).length : Int) - 3) = 2 := by
        simp
      rw [hlen]
      exact hpa
    obtain ⟨_, hport, _, hret⟩ := parse_at _ _ _ _ _ hpa'
    have hneg : requestedPort [prog, "-port".toList, v, pif, cart] < 0 := by
      rw [← hport]; omega
    refine ⟨hport.symm, ?_, ?_⟩
    · intro fuel code w h
      have hcode : code = (firstFailure b e [prog, "-port".toList, v, pif, cart]).exitCode := by
        rcases main_code b e [prog, "-port".toList, v, pif, cart] fuel with hd | ⟨w', hr⟩
        · rw [hd] at h; simp at h
        · rw [hr] at h
          simp only [Outcome.ret.injEq, Prod.mk.injEq] at h
          exact h.1.symm
      refine ⟨hcode, ?_, main_noChannel b e _ fuel code w hneg h⟩
      rw [hcode]
      have hns := stage_no_port b e [prog, "-port".toList, v, pif, cart] hneg
      revert hns
      cases firstFailure b e [prog, "-port".toList, v, pif, cart] <;> simp [Stage.exitCode]
    · intro n hs fuel hf
      have hlen : ([prog, "-port".toList, v, pif, cart] : List CStr).length = 5 := rfl
      exact main_live b e _ fuel n 0 hret (fun h0 => absurd h0 (by omega)) (Or.inr hs)
        ⟨by omega, by omega, by omega⟩

/-- C4 (witness): the value `abc`. -/
theorem ParseArgs_bad_port_ignored_witness :
    Char.ofNat 0 ∉ "abc".toList ∧ badPortValue "abc".toList = true ∧
    requestedPort portAbcLine = -1 ∧
    (∀ (fuel : Nat) (code : Int) (w : World),
      main posixBuild goodEnv portAbcLine fuel = .ret (code, w) →
      code = (firstFailure posixBuild goodEnv portAbcLine).exitCode ∧
      code ∈ [0, 1, 2, 3, 5] ∧ (∀ x ∈ w.trace, x.opensChannel = false)) ∧
    (∀ n, goodEnv.shutdownAfter = some n → ∀ fuel, n + 7 ≤ fuel →
      ∃ w, main posixBuild goodEnv portAbcLine fuel =
        .ret ((firstFailure posixBuild goodEnv portAbcLine).exitCode, w)) :=
  ⟨by decide, by decide,
    (ParseArgs_bad_port_ignored "abc".toList (by decide) (by decide)).2.2.2 posixBuild goodEnv
      "cen64".toList "pif.bin".toList "cart.z64".toList⟩

/-- C6 (witness): `cen64 -port 0 pif.bin cart.z64` in `goodEnv`. -/
theorem main_rendezvous_sequence_witness :
    0 ≤ requestedPort portZeroLine ∧
    firstFailure posixBuild goodEnv portZeroLine = .cleanStop ∧
    parseReturns portZeroLine = true ∧ goodEnv.accept 2 ≠ none ∧
    main posixBuild goodEnv portZeroLine 10 = .ret (0, goodRun) ∧
    ∃ (c : Candidate) (q j client : Nat),
      firstGood (goodEnv.resolver (requestedPort portZeroLine)) = some c ∧
      goodEnv.sockname = some q ∧ goodEnv.accept j = some client ∧ (∀ i, i < j → goodEnv.accept i = none) ∧
      (∀ x ∈ rendezvousPre posixBuild goodEnv portZeroLine, x.isRendezvous = false) ∧
      (∀ fuel, portZeroLine.length + 1 + (j + 1) ≤ fuel →
        main posixBuild goodEnv portZeroLine fuel =
          mainRun posixBuild goodEnv (goodEnv.createDevice (pifromOf portZeroLine))
            (if posixBuild.glfw3 then goodEnv.openWindow else none) (cartOf portZeroLine) (-1) (client : Int) fuel
            ⟨rendezvousPre posixBuild goodEnv portZeroLine ++
                rendezvousSteps posixBuild (fdResult c.socket) ((q % 65536 : Nat) : Int) j client,
              ((client : Int) :: [fdResult c.socket]).erase (fdResult c.socket), []⟩) ∧
      (∀ fuel code wf, main posixBuild goodEnv portZeroLine fuel = .ret (code, wf) →
        ∃ post : List Event,
          wf.trace = rendezvousPre posixBuild goodEnv portZeroLine ++
            rendezvousSteps posixBuild (fdResult c.socket) ((q % 65536 : Nat) : Int) j client ++ post ∧
          (∀ x ∈ post, x.isRendezvous = false) ∧
          (∀ fd, Event.close fd ∈ post → fd = (client : Int)) ∧
          wf.teardowns =
            [⟨goodEnv.createDevice (pifromOf portZeroLine), if posixBuild.glfw3 then goodEnv.openWindow else none, -1,
              (client : Int)⟩]) ∧
      (∀ n, (goodEnv.loadCartridge (cartOf portZeroLine) ≠ 0 ∨ goodEnv.shutdownAfter = some n) →
        ∀ fuel, portZeroLine.length + 1 + (j + 1) + (n + 1) ≤ fuel →
          ∃ code wf, main posixBuild goodEnv portZeroLine fuel = .ret (code, wf)) :=
  ⟨by decide, by decide, by decide, by decide, by decide,
    main_rendezvous_sequence posixBuild goodEnv portZeroLine 2 (by decide)
      (Or.inr (by decide)) (by decide) (by decide)⟩

end CEN64
